import Mathlib

/-!
# Verification of the ferenda facet / TOC / feed core

Shallow embedding of the facet classification, TOC pageset, feedset and
Atom-archive-splitting algorithms of `ferenda/facet.py` and
`ferenda/documentrepository.py`, together with theorems settling the frozen
claims about the natural-language specification of that core.

Conventions of the embedding:
* Python dicts holding row data become association lists (`Row`), with
  Python's in-place update semantics (`pySet`).
* Python exceptions become the `PyErr` error type carried in `Except`;
  `try/except KeyError` blocks catch exactly `PyErr.keyError` and let every
  other error propagate, as the source does.
* Selector/key/identificator callables form the closed set `SelectorFn`
  (the function library of `facet.py` plus the ad-hoc lambdas of
  `news_select_for_feeds`); Python compares them by object identity, which
  constructor equality mirrors.
* Python's partial operations stay partial: `sorted` raises `TypeError`
  on cross-type value comparisons, `%`-formatting raises `KeyError` on a
  directive absent from its mapping, and `datetime.strptime` rejects year
  0 and seconds beyond 59 — all paths the building passes leave uncaught.
* Functions whose definition lives outside the provided sources
  (`ferenda.util` helpers, the `use_for_feed` facet flag read by
  `documentrepository.py` but absent from this snapshot's `facet.py`) are
  modelled from the spec and marked as such in their doc comments.
-/

/-- Python-level scalar values stored in faceted rows: strings, booleans
(`Facet.booleanvalue` results), datetimes (modelled as ordinal timestamps)
and `None`. -/
inductive FValue where
  | str (s : String)
  | boolean (b : Bool)
  | time (t : Nat)
  | pynone
deriving DecidableEq, Repr

/-- The Python exceptions the core raises or catches: `KeyError` (missing
dict binding, caught by the builders), `ValueError` (`datetime.strptime`
on malformed input), `IndexError` (`[0]` on an empty string) and
`TypeError` (string operations on non-strings). -/
inductive PyErr where
  | keyError
  | valueError
  | indexError
  | typeError
deriving DecidableEq, Repr

/-- A faceted row: one flat attribute record about one document, a Python
dict from binding name to value (`documentrepository.faceted_data`). -/
abbrev Row := List (String × FValue)

/-- `row[k]` — dict lookup, raising `KeyError` when the binding is absent. -/
def pyGet (row : Row) (k : String) : Except PyErr FValue :=
  match row.lookup k with
  | some v => .ok v
  | none => .error .keyError

/-- `row[k] = v` — in-place dict update: replace the value at an existing
key (keeping its position) or append a fresh key at the end, exactly the
insertion-order semantics of a Python dict. -/
def pySet (row : Row) (k : String) (v : FValue) : Row :=
  match row with
  | [] => [(k, v)]
  | (k', v') :: rest => if k' = k then (k, v) :: rest else (k', v') :: pySet rest k v

/-- Same dict-update operation for the `selector_fragments` dict of
`toc_pagesets` / `news_feedsets`, keyed by selector values. -/
def pySetF (d : List (FValue × FValue)) (k v : FValue) : List (FValue × FValue) :=
  match d with
  | [] => [(k, v)]
  | (k', v') :: rest => if k' = k then (k, v) :: rest else (k', v') :: pySetF rest k v

/-- Lookup in a selector-value keyed dict. -/
def lookupF (d : List (FValue × FValue)) (k : FValue) : Option FValue :=
  match d with
  | [] => none
  | (k', v) :: rest => if k' = k then some v else lookupF rest k

/-- The reference dataset for `Facet.resourcelabel` lookups
(`self.commondata`): triples `((subject, predicate), literal)`;
`graphValue g s p` is rdflib's `resource_graph.value(s, p)`. -/
abbrev Graph := List ((String × String) × String)

def graphValue (g : Graph) (s p : String) : Option String :=
  g.lookup (s, p)

/-! ## Character-list string helpers

All string computation is done structurally on `List Char` so that every
definition evaluates by kernel reduction. -/

/-- Strip `pat` from the front of `s`, returning the remainder. -/
def stripFront : List Char → List Char → Option (List Char)
  | [], s => some s
  | _ :: _, [] => none
  | p :: ps, c :: cs => if p = c then stripFront ps cs else none

/-- Replace every occurrence of `pat` by `rep`, left to right (Python
`str.replace`); `fuel` bounds the scan (callers pass the string length). -/
def replaceFuel (pat rep : List Char) : Nat → List Char → List Char
  | 0, s => s
  | _ + 1, [] => []
  | fuel + 1, c :: cs =>
    match stripFront pat (c :: cs) with
    | some rem => rep ++ replaceFuel pat rep fuel rem
    | none => c :: replaceFuel pat rep fuel cs

/-- Python `str.replace(pat, rep)` for nonempty `pat`. -/
def strReplace (s pat rep : String) : String :=
  String.mk (replaceFuel pat.data rep.data s.data.length s.data)

/-- Lexicographic comparison of character lists by code point (Python `<=`
on `str`). -/
def charsLe : List Char → List Char → Bool
  | [], _ => true
  | _ :: _, [] => false
  | a :: as, b :: bs =>
    if a.toNat < b.toNat then true
    else if b.toNat < a.toNat then false
    else charsLe as bs

/-- Python `a <= b` on row values: defined within one value type (`bool`,
`datetime`, `str`), raising `TypeError` across types — and on `None`,
which supports no ordering at all. `sorted` executes these comparisons,
so a value set mixing types aborts the sort. -/
def fvLeE : FValue → FValue → Except PyErr Bool
  | .boolean a, .boolean b => .ok (!a || b)
  | .time a, .time b => .ok (a ≤ b)
  | .str a, .str b => .ok (charsLe a.data b.data)
  | _, _ => .error .typeError

/-- Python `str(value)` as used when filling `%(selected)s` templates. -/
def fvStr : FValue → String
  | .str s => s
  | .boolean true => "True"
  | .boolean false => "False"
  | .time t => toString t
  | .pynone => "None"

/-- Stable ascending insertion (later elements land after equal keys); a
raising comparison aborts the sort, as in CPython. -/
def insertAscE (le : α → α → Except PyErr Bool) (x : α) :
    List α → Except PyErr (List α)
  | [] => .ok [x]
  | y :: ys =>
    match le y x with
    | .error e => .error e
    | .ok true => (insertAscE le x ys).map (y :: ·)
    | .ok false => .ok (x :: y :: ys)

/-- Stable descending insertion: `y` stays in front of `x` exactly when
`x ≤ y`, so earlier equal elements keep their place — the semantics of
Python's `sorted(..., reverse=True)`. -/
def insertDescE (le : α → α → Except PyErr Bool) (x : α) :
    List α → Except PyErr (List α)
  | [] => .ok [x]
  | y :: ys =>
    match le x y with
    | .error e => .error e
    | .ok true => (insertDescE le x ys).map (y :: ·)
    | .ok false => .ok (x :: y :: ys)

/-- Python `sorted(l, reverse=rev)` under the fallible comparison `le`:
stable in both directions, propagating the first comparison error. Every
inserted element is compared against the head of the already-sorted
prefix, so — exactly as with timsort's initial run detection, which
compares all adjacent elements — the sort raises `TypeError` precisely
when the input mixes incomparable values (and succeeds on every
homogeneous input). -/
def pySorted (le : α → α → Except PyErr Bool) (l : List α) (rev : Bool) :
    Except PyErr (List α) :=
  if rev then l.foldlM (fun acc x => insertDescE le x acc) []
  else l.foldlM (fun acc x => insertAscE le x acc) []

/-! ## `ferenda.util` helpers (module not part of the provided sources) -/

/-- Modelled from the spec: `ferenda.util.title_sortkey` — "lower-cases,
strips non-alphanumerics", e.g. `"A Tale of Two Cities" ↦
"ataleoftwocities"` (the doctest of `Facet.titlesortkey`). -/
def title_sortkey (s : String) : String :=
  String.mk ((s.data.map Char.toLower).filter Char.isAlphanum)

/-- Last path segment accumulator for `uri_leaf`. -/
def lastSeg : List Char → List Char → List Char
  | acc, [] => acc
  | acc, c :: cs => if c = '/' ∨ c = '#' then lastSeg [] cs else lastSeg (acc ++ [c]) cs

/-- Modelled from the spec: `ferenda.util.uri_leaf` — "returns the final
path segment of a resource identifier", e.g.
`http://purl.org/dc/terms/issued ↦ issued`. -/
def uri_leaf (uri : String) : String :=
  String.mk (lastSeg [] uri.data)

/-! ## RDF vocabulary and namespace prefixes -/

def rdfType : String := "http://www.w3.org/1999/02/22-rdf-syntax-ns#type"
def rdfsResource : String := "http://www.w3.org/2000/01/rdf-schema#Resource"
def rdfsLabel : String := "http://www.w3.org/2000/01/rdf-schema#label"
def skosPrefLabel : String := "http://www.w3.org/2004/02/skos/core#prefLabel"
def skosAltLabel : String := "http://www.w3.org/2004/02/skos/core#altLabel"
def dctermsTitle : String := "http://purl.org/dc/terms/title"
def dctermsAlternative : String := "http://purl.org/dc/terms/alternative"
def dctermsIdentifier : String := "http://purl.org/dc/terms/identifier"
def dctermsAbstract : String := "http://purl.org/dc/terms/abstract"
def dctermsPublisher : String := "http://purl.org/dc/terms/publisher"
def dctermsReferences : String := "http://purl.org/dc/terms/references"
def dctermsIssued : String := "http://purl.org/dc/terms/issued"
def dctermsSubject : String := "http://purl.org/dc/terms/subject"
def dcCreator : String := "http://purl.org/dc/elements/1.1/creator"
def dcSubject : String := "http://purl.org/dc/elements/1.1/subject"
def foafName : String := "http://xmlns.com/foaf/0.1/name"
def schemaFree : String := "http://schema.org/free"

/-- The namespace prefixes bound by `DocumentRepository.make_graph` (its
`namespaces` class attribute resolved through the well-known prefix table
`util.ns`, which is not part of the provided sources). -/
def nsTable : List (String × String) :=
  [("rdf", "http://www.w3.org/1999/02/22-rdf-syntax-ns#"),
   ("rdfs", "http://www.w3.org/2000/01/rdf-schema#"),
   ("xsd", "http://www.w3.org/2001/XMLSchema#"),
   ("xsi", "http://www.w3.org/2001/XMLSchema-instance"),
   ("dcterms", "http://purl.org/dc/terms/"),
   ("skos", "http://www.w3.org/2004/02/skos/core#"),
   ("foaf", "http://xmlns.com/foaf/0.1/"),
   ("xhv", "http://www.w3.org/1999/xhtml/vocab#"),
   ("owl", "http://www.w3.org/2002/07/owl#"),
   ("prov", "http://www.w3.org/ns/prov-o/"),
   ("bibo", "http://purl.org/ontology/bibo/")]

def qnameGo : List (String × String) → String → String
  | [], uri => "ns1:" ++ uri_leaf uri
  | (p, ns) :: rest, uri =>
    match stripFront ns.data uri.data with
    | some rem => p ++ ":" ++ String.mk rem
    | none => qnameGo rest uri

/-- `rdflib.Graph.qname` for a graph produced by `make_graph`: prefix the
URI with the matching registered namespace. -/
def qname (uri : String) : String := qnameGo nsTable uri

/-! ## Date parsing for `Facet.year`

`Facet.year` chooses a `strptime` format string by the *length* of the
value (a dict lookup raising `KeyError` for any other length) and then
parses; `strptime` raises `ValueError` when the digits/ranges are wrong. -/

def isDigit9 (c : Char) : Bool := '0' ≤ c ∧ c ≤ '9'

def digitsToNat : List Char → Nat
  | [] => 0
  | c :: cs => (c.toNat - '0'.toNat) * 10 ^ cs.length + digitsToNat cs

def isLeap (y : Nat) : Bool := (y % 4 = 0 ∧ y % 100 ≠ 0) ∨ y % 400 = 0

def daysInMonth (y m : Nat) : Nat :=
  if m = 2 then (if isLeap y then 29 else 28)
  else if m = 4 ∨ m = 6 ∨ m = 9 ∨ m = 11 then 30
  else 31

/-- `datetime.strptime(s, "%Y-%m")` validity for a 7-character string.
`datetime.MINYEAR` is 1, so the all-zero year "0000" raises `ValueError`
("year 0 is out of range") even though its digits parse. -/
def validYM (c : List Char) : Bool :=
  match c with
  | [y1, y2, y3, y4, d1, m1, m2] =>
    isDigit9 y1 ∧ isDigit9 y2 ∧ isDigit9 y3 ∧ isDigit9 y4 ∧ d1 = '-' ∧
    isDigit9 m1 ∧ isDigit9 m2 ∧
    1 ≤ digitsToNat [y1, y2, y3, y4] ∧
    (let m := digitsToNat [m1, m2]; 1 ≤ m ∧ m ≤ 12)
  | _ => false

/-- `datetime.strptime(s, "%Y-%m-%d")` validity for a 10-character string. -/
def validYMD (c : List Char) : Bool :=
  match c with
  | [y1, y2, y3, y4, s1, m1, m2, s2, d1, d2] =>
    validYM [y1, y2, y3, y4, s1, m1, m2] ∧ s2 = '-' ∧ isDigit9 d1 ∧ isDigit9 d2 ∧
    (let d := digitsToNat [d1, d2]
     1 ≤ d ∧ d ≤ daysInMonth (digitsToNat [y1, y2, y3, y4]) (digitsToNat [m1, m2]))
  | _ => false

/-- `datetime.strptime(s, "%Y-%m-%dT%H:%M:%S")` validity for a
19-character string. `datetime` restricts seconds to 0..59: the leap
seconds 60 and 61 that `time.strptime`'s `%S` grammar tolerates still
raise `ValueError` when the `datetime` object is constructed. -/
def validYMDT (c : List Char) : Bool :=
  match c with
  | y1 :: y2 :: y3 :: y4 :: s1 :: m1 :: m2 :: s2 :: d1 :: d2 :: rest =>
    match rest with
    | [t, h1, h2, c1, n1, n2, c2, e1, e2] =>
      validYMD [y1, y2, y3, y4, s1, m1, m2, s2, d1, d2] ∧
      t = 'T' ∧ c1 = ':' ∧ c2 = ':' ∧
      isDigit9 h1 ∧ isDigit9 h2 ∧ isDigit9 n1 ∧ isDigit9 n2 ∧
      isDigit9 e1 ∧ isDigit9 e2 ∧
      digitsToNat [h1, h2] ≤ 23 ∧ digitsToNat [n1, n2] ≤ 59 ∧
      digitsToNat [e1, e2] ≤ 59
    | _ => false
  | _ => false

/-- `str(d.year)` after a successful parse: the numeric value of the four
year digits, printed without leading zeros. -/
def yearStr (c : List Char) : String := toString (digitsToNat (c.take 4))

/-! ## The function library of `facet.py`

Each classmethod has signature `(row, binding, resource_graph)`; the
embedding returns an `Except PyErr FValue` result *and* the row as left
behind by the call (only `sortresource` updates it). -/

/-- The closed set of selector/key/identificator callables: the Facet
classmethods plus the three lambdas `news_select_for_feeds` builds its
synthetic catch-all facet from. Python compares these by object identity;
constructor equality mirrors that. -/
inductive SelectorFn where
  | defaultselector
  | year
  | booleanvalue
  | titlesortkey
  | firstletter
  | resourcelabel
  | sortresource
  | term
  | qnameSel
  | fakeSelector
  | fakeIdentificator
  | fakeKey
deriving DecidableEq, Repr

/-- `Facet.defaultselector`: returns `row[binding]` verbatim. -/
def fnDefaultselector (row : Row) (binding : String) : Except PyErr FValue :=
  pyGet row binding

/-- `Facet.year`: pick the format string by `len(datestring)` (a dict
lookup — `KeyError` on any other length), `strptime` it (`ValueError` on
malformed content) and return `str(d.year)`. -/
def fnYear (row : Row) (binding : String) : Except PyErr FValue :=
  match pyGet row binding with
  | .error e => .error e
  | .ok v =>
    match v with
    | .str s =>
      if s.data.length = 19 then
        if validYMDT s.data then .ok (.str (yearStr s.data)) else .error .valueError
      else if s.data.length = 10 then
        if validYMD s.data then .ok (.str (yearStr s.data)) else .error .valueError
      else if s.data.length = 7 then
        if validYM s.data then .ok (.str (yearStr s.data)) else .error .valueError
      else .error .keyError
    | _ => .error .typeError

/-- `Facet.booleanvalue`: `row[binding] == 'true'`. -/
def fnBooleanvalue (row : Row) (binding : String) : Except PyErr FValue :=
  match pyGet row binding with
  | .error e => .error e
  | .ok v => .ok (.boolean (v = .str "true"))

/-- `Facet.titlesortkey`: ignores the provided binding and sorts by
`row['dcterms_title']`, transformed by `util.title_sortkey`. -/
def fnTitlesortkey (row : Row) (_binding : String) : Except PyErr FValue :=
  match pyGet row "dcterms_title" with
  | .error e => .error e
  | .ok (.str s) => .ok (.str (title_sortkey s))
  | .ok _ => .error .typeError

/-- `Facet.firstletter`: `titlesortkey(row, binding)[0]` (an `IndexError`
when the sort key is empty). -/
def fnFirstletter (row : Row) (binding : String) : Except PyErr FValue :=
  match fnTitlesortkey row binding with
  | .error e => .error e
  | .ok (.str s) =>
    match s.data with
    | [] => .error .indexError
    | c :: _ => .ok (.str (String.mk [c]))
  | .ok _ => .error .typeError

/-- The label-bearing properties `Facet.resourcelabel` tries in order. -/
def labelPreds : List String :=
  [rdfsLabel, skosPrefLabel, skosAltLabel, dctermsTitle, dctermsAlternative, foafName]

def firstLabel (g : Graph) (uri : String) : List String → Option String
  | [] => none
  | p :: ps =>
    match graphValue g uri p with
    | some l => some l
    | none => firstLabel g uri ps

/-- `Facet.resourcelabel`: look `row[binding]` up in the reference graph
through the ordered label properties; fall back to the raw value. -/
def fnResourcelabel (row : Row) (binding : String) (g : Graph) : Except PyErr FValue :=
  match pyGet row binding with
  | .error e => .error e
  | .ok (.str uri) =>
    match firstLabel g uri labelPreds with
    | some l => .ok (.str l)
    | none => .ok (.str uri)
  | .ok _ => .error .typeError

/-- `Facet.term`: `util.uri_leaf(row[binding])`. -/
def fnTerm (row : Row) (binding : String) : Except PyErr FValue :=
  match pyGet row binding with
  | .error e => .error e
  | .ok (.str uri) => .ok (.str (uri_leaf uri))
  | .ok _ => .error .typeError

/-- `Facet.qname`: namespace-prefixed short form of `row[binding]`. -/
def fnQname (row : Row) (binding : String) : Except PyErr FValue :=
  match pyGet row binding with
  | .error e => .error e
  | .ok (.str uri) => .ok (.str (qname uri))
  | .ok _ => .error .typeError

/-- `Facet.sortresource`: assigns
`row[binding] = resourcelabel(row, binding, g)` — the one function of the
library that mutates its row — then returns
`titlesortkey({'dcterms_title': row[binding]}, binding)`. -/
def fnSortresource (row : Row) (binding : String) (g : Graph) :
    Except PyErr FValue × Row :=
  match fnResourcelabel row binding g with
  | .error e => (.error e, row)
  | .ok lv =>
    let row' := pySet row binding lv
    (fnTitlesortkey [("dcterms_title", lv)] binding, row')

/-- Apply a selector/key/identificator to a row, yielding its result and
the row as the call leaves it (every function except `sortresource` leaves
it untouched). The three `fake*` cases are the lambdas of
`news_select_for_feeds`: constant `None` selector/identificator, and a key
reading `row['updated']`. -/
def applySel (s : SelectorFn) (row : Row) (binding : String) (g : Graph) :
    Except PyErr FValue × Row :=
  match s with
  | .defaultselector => (fnDefaultselector row binding, row)
  | .year => (fnYear row binding, row)
  | .booleanvalue => (fnBooleanvalue row binding, row)
  | .titlesortkey => (fnTitlesortkey row binding, row)
  | .firstletter => (fnFirstletter row binding, row)
  | .resourcelabel => (fnResourcelabel row binding g, row)
  | .sortresource => fnSortresource row binding g
  | .term => (fnTerm row binding, row)
  | .qnameSel => (fnQname row binding, row)
  | .fakeSelector => (.ok .pynone, row)
  | .fakeIdentificator => (.ok .pynone, row)
  | .fakeKey => (pyGet row "updated", row)

/-! ## Facet and the defaults registry -/

/-- The `ferenda.fulltextindex` IndexedType classes used by the defaults
registry (that module is not part of the provided sources; only the class
and boost argument shapes used in `facet.py` are modelled). -/
inductive IndexingType where
  | text (boost : Option Nat)
  | uri
  | label (boost : Option Nat)
  | datetime
  | boolean
  | keyword
  | resource
deriving DecidableEq, Repr

/-- A classification dimension (`ferenda.facet.Facet`). `use_for_feed` is
modelled from the spec: `documentrepository.py` reads
`facet.use_for_feed`, but this snapshot's `facet.py` never defines it;
per spec §4.1 it is a policy flag defaulted from the registry like
`use_for_toc`. -/
structure Facet where
  rdftype : String
  label : String
  pagetitle : String
  indexingtype : IndexingType
  selector : SelectorFn
  key : SelectorFn
  identificator : SelectorFn
  toplevel_only : Bool
  use_for_toc : Bool
  use_for_feed : Bool
  selector_descending : Bool
  key_descending : Bool
  multiple_values : Bool
  dimension_type : Option String
  dimension_label : Option String
deriving DecidableEq, Repr

/-- One entry of the `Facet.defaults` registry: the per-rdftype overrides
(absent entries fall back to the `_finddefault` defaults). -/
structure FacetDefaults where
  label : Option String := none
  pagetitle : Option String := none
  indexingtype : Option IndexingType := none
  selector : Option SelectorFn := none
  key : Option SelectorFn := none
  identificator : Option SelectorFn := none
  toplevel_only : Option Bool := none
  use_for_toc : Option Bool := none
  use_for_feed : Option Bool := none
  selector_descending : Option Bool := none
  key_descending : Option Bool := none
  multiple_values : Option Bool := none
  dimension_type : Option String := none
deriving DecidableEq, Repr

/-- The `Facet.defaults` registry keyed by well-known predicate
identities (bottom of `facet.py`). The `use_for_feed := true` entry for
`dcterms:issued` is modelled from the spec ("a publication date predicate
… is TOC- and feed-enabled"); everything else is the literal dict. -/
def facetDefaults (rdftype : String) : Option FacetDefaults :=
  if rdftype = rdfType then
    some { indexingtype := some .uri, toplevel_only := some false,
           use_for_toc := some false, selector := some .qnameSel,
           identificator := some .term, dimension_type := some "term" }
  else if rdftype = dctermsTitle then
    some { indexingtype := some (.text (some 4)), toplevel_only := some false,
           use_for_toc := some true, selector := some .firstletter,
           key := some .titlesortkey, identificator := some .firstletter,
           dimension_type := some "value",
           pagetitle := some "Documents starting with \"%(selected)s\"" }
  else if rdftype = dctermsIdentifier then
    some { indexingtype := some (.label (some 16)), toplevel_only := some false,
           use_for_toc := some true, selector := some .firstletter,
           key := some .titlesortkey, identificator := some .firstletter }
  else if rdftype = dctermsAbstract then
    some { indexingtype := some (.text (some 2)), toplevel_only := some true,
           use_for_toc := some false }
  else if rdftype = dcCreator then
    some { indexingtype := some (.label none), toplevel_only := some true,
           use_for_toc := some true, selector := some .defaultselector,
           key := some .titlesortkey, dimension_type := some "value" }
  else if rdftype = dctermsPublisher then
    some { indexingtype := some .resource, toplevel_only := some true,
           use_for_toc := some true, selector := some .resourcelabel,
           key := some .resourcelabel, identificator := some .term,
           dimension_type := some "ref" }
  else if rdftype = dctermsReferences then
    some { indexingtype := some .uri, use_for_toc := some false }
  else if rdftype = dctermsIssued then
    some { label := some "Sorted by publication year",
           pagetitle := some "Documents published in %(selected)s",
           indexingtype := some .datetime, toplevel_only := some true,
           use_for_toc := some true, use_for_feed := some true,
           selector := some .year, key := some .defaultselector,
           identificator := some .year, selector_descending := some false,
           key_descending := some false, dimension_type := some "year" }
  else if rdftype = dcSubject then
    some { indexingtype := some .keyword, multiple_values := some true,
           toplevel_only := some true, use_for_toc := some true,
           selector := some .defaultselector, key := some .defaultselector,
           dimension_type := some "value" }
  else if rdftype = dctermsSubject then
    some { indexingtype := some .resource, multiple_values := some true,
           toplevel_only := some true, use_for_toc := some true,
           selector := some .resourcelabel, key := some .resourcelabel,
           identificator := some .term, dimension_type := some "value" }
  else if rdftype = schemaFree then
    some { indexingtype := some .boolean, toplevel_only := some true,
           use_for_toc := some true, selector := some .booleanvalue,
           key := some .defaultselector, dimension_type := some "value" }
  else none

/-- `Facet.__init__._finddefault`: a provided argument wins; otherwise the
registry entry for this rdftype, if any sets this argument type; otherwise
the hard default. -/
def findDefault (provided : Option α) (fd : Option FacetDefaults)
    (get : FacetDefaults → Option α) (dflt : α) : α :=
  match provided with
  | some v => v
  | none =>
    match fd with
    | some d => (get d).getD dflt
    | none => dflt

/-- `Facet.__init__`: fill every unset argument from the registry, with
the hard defaults of the source (`use_for_feed` added per spec §4.1 with
hard default `false`; `dimension_label` is never defaulted). -/
def facetInit (rdftype : String)
    (label pagetitle : Option String := none)
    (indexingtype : Option IndexingType := none)
    (selector key identificator : Option SelectorFn := none)
    (toplevel_only use_for_toc use_for_feed : Option Bool := none)
    (selector_descending key_descending multiple_values : Option Bool := none)
    (dimension_type dimension_label : Option String := none) : Facet :=
  let fd := facetDefaults rdftype
  { rdftype := rdftype
    label := findDefault label fd (·.label) "Sorted by %(term)s"
    pagetitle := findDefault pagetitle fd (·.pagetitle)
      "Documents where %(term)s = %(selected)s"
    indexingtype := findDefault indexingtype fd (·.indexingtype) (.text none)
    selector := findDefault selector fd (·.selector) .defaultselector
    key := findDefault key fd (·.key) .defaultselector
    identificator := findDefault identificator fd (·.identificator) .defaultselector
    toplevel_only := findDefault toplevel_only fd (·.toplevel_only) false
    use_for_toc := findDefault use_for_toc fd (·.use_for_toc) false
    use_for_feed := findDefault use_for_feed fd (·.use_for_feed) false
    selector_descending := findDefault selector_descending fd (·.selector_descending) false
    key_descending := findDefault key_descending fd (·.key_descending) false
    multiple_values := findDefault multiple_values fd (·.multiple_values) false
    dimension_type := findDefault dimension_type fd (·.dimension_type) none
    dimension_label := dimension_label }

/-- Constructing a Facet giving only its identity. -/
def mkFacet (rdftype : String) : Facet := facetInit rdftype

/-- `Facet.__eq__`: "compare only those properties that affects the SET of
selected data using this facet". -/
def facetEq (a b : Facet) : Bool :=
  a.rdftype == b.rdftype && a.dimension_type == b.dimension_type &&
    a.dimension_label == b.dimension_label && a.selector == b.selector

/-! ## TOC pagesets (`DocumentRepository.toc_pagesets`) -/

/-- A TOC page (`ferenda.TocPage`): link text (the selector value), page
title, binding and URL-fragment value. -/
structure TocPage where
  linktext : FValue
  title : String
  binding : String
  value : FValue
deriving DecidableEq, Repr

/-- A TOC pageset (`ferenda.TocPageset`). -/
structure TocPageset where
  label : String
  predicate : String
  pages : List TocPage
deriving DecidableEq, Repr

/-- Association-list lookup for the `%`-formatting mapping. -/
def lookupS : List (String × String) → String → Option String
  | [], _ => none
  | (k, v) :: rest, k' => if k = k' then some v else lookupS rest k'

/-- Split a character list at the first occurrence of `c`, returning the
characters before it and the remainder after it. -/
def splitAtChar (c : Char) : List Char → Option (List Char × List Char)
  | [] => none
  | x :: xs =>
    if x = c then some ([], xs)
    else (splitAtChar c xs).map (fun p => (x :: p.1, p.2))

/-- Python `template % mapping` over the template's characters: a
`%(name)s` directive is replaced by `mapping[name]`, raising `KeyError`
when `name` is not a key of the mapping; `%%` is a literal percent; any
other use of `%` — an unterminated `%(`, a conversion character other
than `s`, a trailing or otherwise stray `%` — is modelled as the
`ValueError` CPython's format parser raises for malformed directives.
Structural recursion on `fuel` (callers pass the template length; each
step consumes at least one character). -/
def pyFormatGo (pairs : List (String × String)) :
    Nat → List Char → Except PyErr (List Char)
  | 0, s => .ok s
  | _ + 1, [] => .ok []
  | fuel + 1, '%' :: rest =>
    match rest with
    | '(' :: rest2 =>
      match splitAtChar ')' rest2 with
      | none => .error .valueError
      | some (name, rest3) =>
        match rest3 with
        | 's' :: rest4 =>
          match lookupS pairs (String.mk name) with
          | some v => (pyFormatGo pairs fuel rest4).map (fun t => v.data ++ t)
          | none => .error .keyError
        | _ => .error .valueError
    | '%' :: rest2 => (pyFormatGo pairs fuel rest2).map (fun t => '%' :: t)
    | _ => .error .valueError
  | fuel + 1, c :: rest => (pyFormatGo pairs fuel rest).map (fun t => c :: t)

/-- Python `template % mapping` with a string-keyed dict, as applied to
`facet.label` and `facet.pagetitle`. Both formatting sites of
`toc_pagesets` (line 2607) and `news_feedsets` (lines 2934, 2956) sit
outside any `try`, so a formatting error always aborts the build. -/
def pyFormat (tmpl : String) (pairs : List (String × String)) :
    Except PyErr String :=
  (pyFormatGo pairs tmpl.data.length tmpl.data).map String.mk

/-- The binding and term name for a facet (`toc_pagesets` lines 2600-2605
and identically `news_feedsets` / `*_select_for_*`): the dimension label
when set, otherwise the underscored qname of the rdftype and its URI
leaf. -/
def facetBinding (f : Facet) : String × String :=
  match f.dimension_label with
  | some dl => (dl, dl)
  | none => (strReplace (qname f.rdftype) ":" "_", uri_leaf f.rdftype)

/-- The per-facet row scan shared verbatim by `toc_pagesets` (lines
2611-2622) and `news_feedsets` (lines 2938-2949): for every row apply the
selector, record the distinct value and overwrite its fragment with the
identificator result; `except KeyError: pass` skips the row, any other
error propagates. Returns the value insertion order, the fragments dict
and the rows as the (possibly mutating) selector calls leave them. -/
def selectorScan (f : Facet) (g : Graph) (binding : String) :
    List Row → List FValue → List (FValue × FValue) →
    Except PyErr (List FValue × List (FValue × FValue) × List Row)
  | [], vals, frags => .ok (vals, frags, [])
  | row :: rest, vals, frags =>
    match applySel f.selector row binding g with
    | (.error .keyError, row') =>
      (selectorScan f g binding rest vals frags).map
        (fun r => (r.1, r.2.1, row' :: r.2.2))
    | (.error e, _) => .error e
    | (.ok selected, row') =>
      let vals' := if selected ∈ vals then vals else vals ++ [selected]
      match applySel f.identificator row' binding g with
      | (.error .keyError, row'') =>
        (selectorScan f g binding rest vals' frags).map
          (fun r => (r.1, r.2.1, row'' :: r.2.2))
      | (.error e, _) => .error e
      | (.ok frag, row'') =>
        (selectorScan f g binding rest vals' (pySetF frags selected frag)).map
          (fun r => (r.1, r.2.1, row'' :: r.2.2))

/-- Page construction of `toc_pagesets` (lines 2623-2630): one page per
distinct selector value in sorted order. `sorted` raises `TypeError` on
a mixed-type value set; per value, the fragment lookup
`selector_fragments[value]` runs first and raises `KeyError` when no row
ever produced a fragment for the value, then the `facet.pagetitle`
template is formatted — all outside the `try`, so each of these errors
aborts the build. -/
def buildPages (f : Facet) (binding term : String) (vals : List FValue)
    (frags : List (FValue × FValue)) : Except PyErr (List TocPage) :=
  (pySorted fvLeE vals f.selector_descending).bind (fun sortedVals =>
    sortedVals.mapM (fun v =>
      match lookupF frags v with
      | none => .error .keyError
      | some frag =>
        (pyFormat f.pagetitle [("term", term), ("selected", fvStr v)]).map
          (fun title =>
            { linktext := v, title := title, binding := binding,
              value := frag })))

/-- The facet loop of `toc_pagesets`, threading the row list (selector
calls may update rows in place, and later facets see the updates). The
`TocPageset` is constructed — formatting `facet.label`, line 2607 —
before the row scan runs, so a label formatting error precedes any
selector error. -/
def tocPagesetsGo (g : Graph) : List Facet → List Row →
    Except PyErr (List TocPageset × List Row)
  | [], data => .ok ([], data)
  | f :: fs, data =>
    if f.use_for_toc then
      match pyFormat f.label [("term", (facetBinding f).2)] with
      | .error e => .error e
      | .ok label =>
        match selectorScan f g (facetBinding f).1 data [] [] with
        | .error e => .error e
        | .ok (vals, frags, data') =>
          match buildPages f (facetBinding f).1 (facetBinding f).2 vals frags with
          | .error e => .error e
          | .ok pages =>
            (tocPagesetsGo g fs data').map (fun r =>
              ({ label := label, predicate := f.rdftype,
                 pages := pages } :: r.1, r.2))
    else tocPagesetsGo g fs data

/-- `DocumentRepository.toc_pagesets`: the set of needed TOC pages based
on the result rows. -/
def toc_pagesets (data : List Row) (facets : List Facet) (g : Graph) :
    Except PyErr (List TocPageset) :=
  (tocPagesetsGo g facets data).map (·.1)

/-! ## Feedsets (`news_feedsets` / `news_select_for_feeds`) -/

/-- `ferenda.Feed`: slug, title, binding (`none` for the catch-all main
feed), grouping value and, after `news_select_for_feeds`, the entries. -/
structure Feed where
  slug : String
  title : String
  binding : Option String
  value : FValue
  entries : List Row
deriving DecidableEq, Repr

/-- `ferenda.Feedset`. -/
structure Feedset where
  label : String
  predicate : Option String
  feeds : List Feed
deriving DecidableEq, Repr

/-- Feed construction of `news_feedsets` (lines 2950-2959): like
`buildPages` but with a slug `term + "/" + urlfragment.lower()`; the
fragment lookup precedes the slug and title computation per value, and
the `facet.pagetitle` formatting error propagates as in `buildPages`. -/
def buildFeeds (f : Facet) (binding term : String) (vals : List FValue)
    (frags : List (FValue × FValue)) : Except PyErr (List Feed) :=
  (pySorted fvLeE vals f.selector_descending).bind (fun sortedVals =>
    sortedVals.mapM (fun v =>
      match lookupF frags v with
      | none => .error .keyError
      | some frag =>
        (pyFormat f.pagetitle [("term", term), ("selected", fvStr v)]).map
          (fun title =>
            { slug := term ++ "/" ++ (fvStr frag).toLower,
              title := title, binding := some binding, value := frag,
              entries := [] })))

/-- The facet loop of `news_feedsets`. As in `toc_pagesets`, the
`Feedset` is constructed — formatting `facet.label`, line 2934 — before
the row scan runs. -/
def newsFeedsetsGo (g : Graph) : List Facet → List Row →
    Except PyErr (List Feedset × List Row)
  | [], data => .ok ([], data)
  | f :: fs, data =>
    if f.use_for_feed then
      match pyFormat f.label [("term", (facetBinding f).2)] with
      | .error e => .error e
      | .ok label =>
        match selectorScan f g (facetBinding f).1 data [] [] with
        | .error e => .error e
        | .ok (vals, frags, data') =>
          match buildFeeds f (facetBinding f).1 (facetBinding f).2 vals frags with
          | .error e => .error e
          | .ok feeds =>
            (newsFeedsetsGo g fs data').map (fun r =>
              ({ label := label, predicate := some f.rdftype,
                 feeds := feeds } :: r.1, r.2))
    else newsFeedsetsGo g fs data

/-- The built-in catch-all Feedset appended unconditionally at the end of
`news_feedsets` (lines 2962-2967). -/
def allFeedset : Feedset :=
  { label := "All", predicate := none,
    feeds := [{ slug := "main", title := "All documents", binding := none,
                value := .pynone, entries := [] }] }

/-- `DocumentRepository.news_feedsets`: one feedset per feed-enabled
facet, plus the built-in "All" feedset. -/
def news_feedsets (data : List Row) (facets : List Facet) (g : Graph) :
    Except PyErr (List Feedset) :=
  (newsFeedsetsGo g facets data).map (fun r => r.1 ++ [allFeedset])

/-- The synthetic catch-all facet `news_select_for_feeds` builds when
there are fewer feed-enabled facets than feedsets (lines 2993-2996):
`Facet(rdftype=RDFS.Resource, identificator=lambda x, y, z: None,
selector=lambda x, y, z: None, key=lambda row, binding, resource_graph:
row['updated'])`. -/
def fakeFacet : Facet :=
  facetInit rdfsResource none none none
    (some .fakeSelector) (some .fakeKey) (some .fakeIdentificator)
    none none none none none none none none

/-- `documents = defaultdict(list)` accumulation: append the row to its
key's bucket, keeping dict insertion order of keys. -/
def bucketAdd (docs : List (FValue × List Row)) (k : FValue) (r : Row) :
    List (FValue × List Row) :=
  match docs with
  | [] => [(k, [r])]
  | (k', rs) :: rest =>
    if k' = k then (k', rs ++ [r]) :: rest else (k', rs) :: bucketAdd rest k r

/-- The bucketing loop of `news_select_for_feeds` (lines 3004-3009):
`documents[identificator(row)].append(row)`, skipping `KeyError` rows. -/
def assignFeed (f : Facet) (g : Graph) (binding : String) :
    List Row → List (FValue × List Row) →
    Except PyErr (List (FValue × List Row) × List Row)
  | [], docs => .ok (docs, [])
  | row :: rest, docs =>
    match applySel f.identificator row binding g with
    | (.error .keyError, row') =>
      (assignFeed f g binding rest docs).map (fun r => (r.1, row' :: r.2))
    | (.error e, _) => .error e
    | (.ok k, row') =>
      (assignFeed f g binding rest (bucketAdd docs k row')).map
        (fun r => (r.1, row' :: r.2))

/-- `sorted(documents[key], key=keyfunc, reverse=facet.key_descending)`:
CPython evaluates the key function once per element (threading any row
mutation), then sorts stably. A key-function error propagates. -/
def decorateKeys (f : SelectorFn) (g : Graph) (binding : String) :
    List Row → Except PyErr (List (FValue × Row))
  | [] => .ok []
  | r :: rs =>
    match applySel f r binding g with
    | (.error e, _) => .error e
    | (.ok k, r') => (decorateKeys f g binding rs).map ((k, r') :: ·)

def sortByKeyFn (f : SelectorFn) (g : Graph) (binding : String)
    (rows : List Row) (rev : Bool) : Except PyErr (List Row) :=
  (decorateKeys f g binding rows).bind (fun pairs =>
    (pySorted (fun a b => fvLeE a.1 b.1) pairs rev).map (fun s =>
      s.map (·.2)))

/-- `DocumentRepository.news_item`: "The default implementation does not
change the entry in any way." -/
def news_item (_binding : String) (entry : Row) : Row := entry

/-- The feed-filling loop of `news_select_for_feeds` (lines 3010-3021):
for each bucket key, every feed whose `value` equals the key receives the
bucket's rows sorted by the facet's key function. -/
def fillFeeds (f : Facet) (g : Graph) (binding : String) (feeds : List Feed)
    (docs : List (FValue × List Row)) : Except PyErr (List Feed) :=
  docs.foldlM (fun fds kv =>
    fds.mapM (fun feed =>
      if feed.value = kv.1 then
        (sortByKeyFn f.key g binding kv.2 f.key_descending).map
          (fun s => { feed with entries := s.map (news_item binding) })
      else .ok feed)) feeds

/-- The feedset/facet loop of `news_select_for_feeds`. -/
def newsSelectGo (g : Graph) : List (Feedset × Facet) → List Row →
    Except PyErr (List Feedset × List Row)
  | [], data => .ok ([], data)
  | (fs, f) :: rest, data =>
    match assignFeed f g (facetBinding f).1 data [] with
    | .error e => .error e
    | .ok (docs, data') =>
      match fillFeeds f g (facetBinding f).1 fs.feeds docs with
      | .error e => .error e
      | .ok feeds =>
        (newsSelectGo g rest data').map (fun r =>
          ({ fs with feeds := feeds } :: r.1, r.2))

/-- `DocumentRepository.news_select_for_feeds`: populate each feed of each
feedset. When there are fewer feed-enabled facets than feedsets — always,
because of the appended "All" feedset — the synthetic catch-all facet is
appended; `zip` pairs feedsets with facets. -/
def news_select_for_feeds (data : List Row) (feedsets : List Feedset)
    (facets : List Facet) (g : Graph) : Except PyErr (List Feedset) :=
  let feedFacets := facets.filter (·.use_for_feed)
  let facets' := if feedFacets.length < feedsets.length
    then feedFacets ++ [fakeFacet] else feedFacets
  (newsSelectGo g (feedsets.zip facets') data).map (·.1)

/-! ## The Atom archive splitter (`news_write_atom`)

The inner `write_file` renders one Atom file; the outer loop splits the
entry list (sorted newest first) into archive chunks. Only the linkage
data matters here: file references are the strings
`"%s.atom" % slug` (the main file) and
`"%s-archive-%s.atom" % (slug, k)` (archive chunk `k`), which the
embedding represents structurally — `slug` is a fixed prefix and the two
shapes never collide, so `AtomRef` carries exactly the chunk number. -/

/-- A reference to one of the produced Atom files. -/
inductive AtomRef where
  | mainfile
  | archive (k : Nat)
deriving DecidableEq, Repr

/-- One produced Atom file: its entries, its filename suffix (`none` for
the main file's empty suffix, `some k` for `"-archive-%s" % k`) and its
`prev-archive` / `next-archive` links. -/
structure ArchiveFile (α : Type) where
  entries : List α
  suffix : Option Nat
  prevarchive : Option AtomRef
  nextarchive : Option AtomRef
deriving DecidableEq, Repr

/-- The `while len(entries) >= archivesize * 2` loop of `news_write_atom`
(lines 3260-3279): cut the oldest `archivesize` entries off the tail into
chunk `cnt`, link it to chunk `cnt - 1` (none for the first chunk) and to
chunk `cnt + 1` or to the main file when the remainder falls under
`2 * archivesize`. Structural recursion on `fuel` (callers pass the entry
count; the loop consumes at least one entry per iteration whenever
`1 ≤ archivesize` — for `archivesize = 0` the source loop does not
terminate, and every claim assumes `archivesize ≥ 1`). Returns the chunks
in production order (oldest first), the remaining entries and the final
`cnt`. -/
def splitLoopF (archivesize : Nat) :
    Nat → List α → Nat → List (ArchiveFile α) × List α × Nat
  | 0, entries, cnt => ([], entries, cnt)
  | fuel + 1, entries, cnt =>
    if 1 ≤ archivesize ∧ 2 * archivesize ≤ entries.length then
      let archiveentries := entries.drop (entries.length - archivesize)
      let remaining := entries.take (entries.length - archivesize)
      let cnt' := cnt + 1
      let prev : Option AtomRef :=
        if 1 < cnt' then some (.archive (cnt' - 1)) else none
      let next : AtomRef :=
        if remaining.length < 2 * archivesize then .mainfile
        else .archive (cnt' + 1)
      let rest := splitLoopF archivesize fuel remaining cnt'
      ({ entries := archiveentries, suffix := some cnt',
         prevarchive := prev, nextarchive := some next } :: rest.1,
       rest.2.1, rest.2.2)
    else ([], entries, cnt)

/-- The chunking loop started on the full entry list. -/
def splitLoop (archivesize : Nat) (entries : List α) (cnt : Nat) :
    List (ArchiveFile α) × List α × Nat :=
  splitLoopF archivesize entries.length entries cnt

/-- `DocumentRepository.news_write_atom`: run the chunking loop, then
insert the main file at position 0 — suffix-less, carrying
`prevarchive = "%s-archive-%s.atom" % (slug, cnt)` for the final `cnt`
(even when the loop never ran and `cnt = 0`) and no `next-archive`.
Output order is main file first, then the chunks oldest to newest. -/
def news_write_atom (entries : List α) (archivesize : Nat) :
    List (ArchiveFile α) :=
  let r := splitLoop archivesize entries 0
  { entries := r.2.1, suffix := none,
    prevarchive := some (.archive r.2.2), nextarchive := none } :: r.1

/-- Does a reference name a given file? The main-file reference matches
the suffix-less file; an archive reference matches the file with that
chunk number. -/
def refMatches (r : AtomRef) (f : ArchiveFile α) : Bool :=
  match r, f.suffix with
  | .mainfile, none => true
  | .archive k, some j => k == j
  | _, _ => false

/-- Follow `next-archive` links from a file through the produced file set
until the main file is reached, counting the hops; `none` when the fuel
runs out (a cycle or an overlong chain), a link is missing, or a link
names no produced file. -/
def hopsToMain (files : List (ArchiveFile α)) :
    Nat → ArchiveFile α → Option Nat
  | 0, _ => none
  | fuel + 1, f =>
    if f.suffix = none then some 0
    else
      match f.nextarchive with
      | none => none
      | some ref =>
        match files.find? (refMatches ref) with
        | none => none
        | some g => (hopsToMain files fuel g).map (· + 1)

/-- The number of chunks the loop cuts from `n` entries (closed form,
established against the loop by `splitLoopF_length`). -/
def kChunks (archivesize n : Nat) : Nat :=
  if 2 * archivesize ≤ n then n / archivesize - 1 else 0

/-! ## Concrete instances used by the claim theorems -/

deriving instance DecidableEq for Except

/-- The newer of two decorated entry rows (`updated` timestamps 2 > 1);
`news_facet_entries` hands the builders such rows sorted newest first. -/
def rowNew : Row := [("uri", .str "http://ex.org/1"), ("updated", .time 2)]

/-- The older of the two decorated entry rows. -/
def rowOld : Row := [("uri", .str "http://ex.org/2"), ("updated", .time 1)]

/-- A facet whose identificator differs from its selector:
`Facet(DCTERMS.issued, selector=Facet.year,
identificator=Facet.defaultselector)` — grouping by year while the
fragment is the full date. -/
def facetYearIdent : Facet :=
  facetInit dctermsIssued none none none
    (some .year) none (some .defaultselector)
    none none none none none none none none

/-- A default `ArchiveFile` used only to spell out concrete `headD`
evaluations in closed theorems. -/
def emptyFile : ArchiveFile Nat :=
  { entries := [], suffix := none, prevarchive := none, nextarchive := none }

/-! ## Basic frame lemmas for the function library -/

/-- Every function of the library except `sortresource` hands its row back
untouched. -/
theorem applySel_row_eq (s : SelectorFn) (hs : s ≠ .sortresource)
    (row : Row) (b : String) (g : Graph) : (applySel s row b g).2 = row := by
  cases s <;> simp_all [applySel]

/-- If both classification functions of a facet are non-mutating, the
per-facet row scan returns the row list unchanged. -/
theorem selectorScan_rows (f : Facet) (g : Graph) (b : String)
    (hf : f.selector ≠ .sortresource) (hi : f.identificator ≠ .sortresource) :
    ∀ data vals frags r, selectorScan f g b data vals frags = .ok r →
      r.2.2 = data := by
  intro data
  induction data with
  | nil => intro vals frags r h; cases h; rfl
  | cons row rest ih =>
    intro vals frags r h
    rw [selectorScan] at h
    rcases hsel : applySel f.selector row b g with ⟨res, row'⟩
    have hrow : row' = row := by
      have h2 := applySel_row_eq f.selector hf row b g
      rw [hsel] at h2; exact h2
    subst hrow
    rw [hsel] at h
    rcases res with e | selected
    · rcases e with _ | _ | _ | _ <;> simp only at h
      · rcases hrec : selectorScan f g b rest vals frags with e' | r'
        · rw [hrec] at h; cases h
        · rw [hrec] at h
          cases h
          simpa using ih _ _ _ hrec
      all_goals cases h
    · simp only at h
      rcases hid : applySel f.identificator row' b g with ⟨res2, row''⟩
      have hrow2 : row'' = row' := by
        have h2 := applySel_row_eq f.identificator hi row' b g
        rw [hid] at h2; exact h2
      subst hrow2
      rw [hid] at h
      rcases res2 with e | frag
      · rcases e with _ | _ | _ | _ <;> simp only at h
        · rcases hrec : selectorScan f g b rest
              (if selected ∈ vals then vals else vals ++ [selected]) frags with e' | r'
          · rw [hrec] at h; cases h
          · rw [hrec] at h; cases h; simpa using ih _ _ _ hrec
        all_goals cases h
      · simp only at h
        rcases hrec : selectorScan f g b rest
            (if selected ∈ vals then vals else vals ++ [selected])
            (pySetF frags selected frag) with e' | r'
        · rw [hrec] at h; cases h
        · rw [hrec] at h; cases h; simpa using ih _ _ _ hrec

/-- The bucketing loop of `news_select_for_feeds` preserves the row list
when the facet's identificator is non-mutating. -/
theorem assignFeed_rows (f : Facet) (g : Graph) (b : String)
    (hi : f.identificator ≠ .sortresource) :
    ∀ (data : List Row) (docs : List (FValue × List Row)) r,
      assignFeed f g b data docs = .ok r → r.2 = data := by
  intro data
  induction data with
  | nil => intro docs r h; cases h; rfl
  | cons row rest ih =>
    intro docs r h
    rw [assignFeed] at h
    rcases hid : applySel f.identificator row b g with ⟨res, row'⟩
    have hrow : row' = row := by
      have h2 := applySel_row_eq f.identificator hi row b g
      rw [hid] at h2; exact h2
    subst hrow
    rw [hid] at h
    rcases res with e | k
    · rcases e with _ | _ | _ | _ <;> simp only at h
      · rcases hrec : assignFeed f g b rest docs with e' | r'
        · rw [hrec] at h; cases h
        · rw [hrec] at h; cases h; simpa using ih _ _ hrec
      all_goals cases h
    · simp only at h
      rcases hrec : assignFeed f g b rest (bucketAdd docs k row') with e' | r'
      · rw [hrec] at h; cases h
      · rw [hrec] at h; cases h; simpa using ih _ _ hrec

/-- The feedset/facet loop of `news_select_for_feeds` preserves the row
list when every paired facet's identificator and key avoid
`sortresource`. (In this embedding the per-bucket key-sorting works on
the bucket's own copies, so only the identificator calls touch the
threaded row list; in CPython the buckets alias the same row objects, so
the key proviso is what keeps the statement faithful to the program.) -/
theorem newsSelectGo_rows (g : Graph) :
    ∀ (pairs : List (Feedset × Facet)) (data : List Row) r,
      (∀ p ∈ pairs, p.2.identificator ≠ .sortresource ∧ p.2.key ≠ .sortresource) →
      newsSelectGo g pairs data = .ok r → r.2 = data := by
  intro pairs
  induction pairs with
  | nil => intro data r _ h; cases h; rfl
  | cons p rest ih =>
    intro data r hp h
    rcases p with ⟨fs, f⟩
    rw [newsSelectGo] at h
    rcases hass : assignFeed f g (facetBinding f).1 data [] with e | dr
    · rw [hass] at h; cases h
    · rw [hass] at h
      simp only at h
      rcases hfill : fillFeeds f g (facetBinding f).1 fs.feeds dr.1 with e | feeds
      · rw [hfill] at h; cases h
      · rw [hfill] at h
        simp only at h
        rcases hrec : newsSelectGo g rest dr.2 with e | r'
        · rw [hrec] at h; cases h
        · rw [hrec] at h
          cases h
          have hdata : dr.2 = data :=
            assignFeed_rows f g (facetBinding f).1
              (hp (fs, f) (by simp)).1 data [] dr hass
          have := ih dr.2 r' (fun p' hp' => hp p' (by simp [hp'])) hrec
          simp [this, hdata]

/-! ## C8 — Facet equality -/

/-- C8: two Facets compare equal exactly when their rdftype (identity),
dimension_type, dimension_label and selector all match; in particular two
Facets differing only in label, pagetitle or key compare equal. -/
theorem c8_facet_equality (a b : Facet) :
    (facetEq a b = true ↔
      (a.rdftype = b.rdftype ∧ a.dimension_type = b.dimension_type ∧
       a.dimension_label = b.dimension_label ∧ a.selector = b.selector)) ∧
    (∀ lab pt k,
      facetEq a { a with label := lab, pagetitle := pt, key := k } = true) := by
  constructor
  · simp [facetEq, and_assoc]
  · intro lab pt k; simp [facetEq]

/-! ## C10 — titlesortkey ignores its binding -/

/-- C10: for every row carrying a `dcterms_title` key, `Facet.titlesortkey`
returns the same result under any two binding arguments (it always sorts by
the `dcterms_title` value), and consequently `Facet.firstletter` is likewise
independent of the binding passed to it. -/
theorem c10_titlesortkey_binding_independent (row : Row) (g : Graph)
    (b1 b2 : String) (_h : (pyGet row "dcterms_title").isOk = true) :
    applySel .titlesortkey row b1 g = applySel .titlesortkey row b2 g ∧
    applySel .firstletter row b1 g = applySel .firstletter row b2 g :=
  ⟨rfl, rfl⟩

/-- C10 witness: the binding independence at a concrete titled row and the
bindings "x" / "y". -/
theorem c10_binding_witness :
    applySel .titlesortkey [("dcterms_title", .str "A Tale of Two Cities")] "x" [] =
      applySel .titlesortkey [("dcterms_title", .str "A Tale of Two Cities")] "y" [] ∧
    applySel .firstletter [("dcterms_title", .str "A Tale of Two Cities")] "x" [] =
      applySel .firstletter [("dcterms_title", .str "A Tale of Two Cities")] "y" [] :=
  c10_titlesortkey_binding_independent _ [] "x" "y" (by decide)

/-! ## C3 — the defaults registry -/

/-- C3: constructing a Facet giving only its identity fills every unset
field from the defaults registry — for the publication-date predicate
(`dcterms:issued`) the facet uses the year selector and is both TOC-enabled
and feed-enabled; for an identity not in the registry the facet gets the
identity selector and is used for neither TOC nor feed (construction is a
total function, so no error is raised for unknown identities). -/
theorem c3_defaults_registry (u : String) (hu : facetDefaults u = none) :
    (mkFacet dctermsIssued).selector = .year ∧
    (mkFacet dctermsIssued).use_for_toc = true ∧
    (mkFacet dctermsIssued).use_for_feed = true ∧
    (mkFacet u).selector = .defaultselector ∧
    (mkFacet u).use_for_toc = false ∧
    (mkFacet u).use_for_feed = false := by
  refine ⟨by decide, by decide, by decide, ?_, ?_, ?_⟩ <;>
    simp [mkFacet, facetInit, hu, findDefault]

/-- C3 witness: `http://example.org/unknown` is not in the registry and
receives the conservative defaults. -/
theorem c3_defaults_registry_witness :
    facetDefaults "http://example.org/unknown" = none ∧
    ((mkFacet dctermsIssued).selector = .year ∧
     (mkFacet dctermsIssued).use_for_toc = true ∧
     (mkFacet dctermsIssued).use_for_feed = true ∧
     (mkFacet "http://example.org/unknown").selector = .defaultselector ∧
     (mkFacet "http://example.org/unknown").use_for_toc = false ∧
     (mkFacet "http://example.org/unknown").use_for_feed = false) :=
  ⟨by decide, c3_defaults_registry "http://example.org/unknown" (by decide)⟩

/-! ## C9 — row immutability -/

/-- C9 (amended): rows are never mutated by the core's classification
functions or the pageset/feedset building passes, with the one exception
of `Facet.sortresource`, which overwrites `row[binding]` with the
resolved resource label: every other function of the library hands its
row back unchanged, and each building step — the `toc_pagesets` facet
loop, the `news_feedsets` facet loop and the `news_select_for_feeds`
bucketing/filling loop — returns the row list unchanged whenever the
facet functions it applies (selector and identificator for the scans,
identificator and key for the select loop) avoid `sortresource`. -/
theorem c9_rows_immutable :
    (∀ s : SelectorFn, s ≠ .sortresource → ∀ (row : Row) (b : String) (g : Graph),
      (applySel s row b g).2 = row) ∧
    (∀ (g : Graph) (facets : List Facet) (data : List Row) r,
      (∀ f ∈ facets, f.selector ≠ .sortresource ∧ f.identificator ≠ .sortresource) →
      tocPagesetsGo g facets data = .ok r → r.2 = data) ∧
    (∀ (g : Graph) (facets : List Facet) (data : List Row) r,
      (∀ f ∈ facets, f.selector ≠ .sortresource ∧ f.identificator ≠ .sortresource) →
      newsFeedsetsGo g facets data = .ok r → r.2 = data) ∧
    (∀ (g : Graph) (pairs : List (Feedset × Facet)) (data : List Row) r,
      (∀ p ∈ pairs, p.2.identificator ≠ .sortresource ∧ p.2.key ≠ .sortresource) →
      newsSelectGo g pairs data = .ok r → r.2 = data) := by
  refine ⟨fun s hs row b g => applySel_row_eq s hs row b g, ?_, ?_,
    fun g pairs data r hp h => newsSelectGo_rows g pairs data r hp h⟩
  · intro g facets
    induction facets with
    | nil => intro data r _ h; cases h; rfl
    | cons f fs ih =>
      intro data r hpure h
      rw [tocPagesetsGo] at h
      by_cases huse : f.use_for_toc
      · rw [if_pos huse] at h
        rcases hfmt : pyFormat f.label [("term", (facetBinding f).2)] with e | lab
        · rw [hfmt] at h; cases h
        · rw [hfmt] at h
          simp only at h
          rcases hscan : selectorScan f g (facetBinding f).1 data [] [] with e | s
          · rw [hscan] at h; cases h
          · rw [hscan] at h
            simp only at h
            rcases hbuild : buildPages f (facetBinding f).1 (facetBinding f).2
                s.1 s.2.1 with e | pages
            · rw [hbuild] at h; cases h
            · rw [hbuild] at h
              simp only at h
              rcases hrec : tocPagesetsGo g fs s.2.2 with e | r'
              · rw [hrec] at h; cases h
              · rw [hrec] at h
                cases h
                have hdata : s.2.2 = data :=
                  selectorScan_rows f g (facetBinding f).1
                    (hpure f (by simp)).1 (hpure f (by simp)).2 data [] [] s hscan
                have := ih s.2.2 r' (fun f' hf' => hpure f' (by simp [hf'])) hrec
                simp [this, hdata]
      · rw [if_neg huse] at h
        exact ih data r (fun f' hf' => hpure f' (by simp [hf'])) h
  · intro g facets
    induction facets with
    | nil => intro data r _ h; cases h; rfl
    | cons f fs ih =>
      intro data r hpure h
      rw [newsFeedsetsGo] at h
      by_cases huse : f.use_for_feed
      · rw [if_pos huse] at h
        rcases hfmt : pyFormat f.label [("term", (facetBinding f).2)] with e | lab
        · rw [hfmt] at h; cases h
        · rw [hfmt] at h
          simp only at h
          rcases hscan : selectorScan f g (facetBinding f).1 data [] [] with e | s
          · rw [hscan] at h; cases h
          · rw [hscan] at h
            simp only at h
            rcases hbuild : buildFeeds f (facetBinding f).1 (facetBinding f).2
                s.1 s.2.1 with e | feeds
            · rw [hbuild] at h; cases h
            · rw [hbuild] at h
              simp only at h
              rcases hrec : newsFeedsetsGo g fs s.2.2 with e | r'
              · rw [hrec] at h; cases h
              · rw [hrec] at h
                cases h
                have hdata : s.2.2 = data :=
                  selectorScan_rows f g (facetBinding f).1
                    (hpure f (by simp)).1 (hpure f (by simp)).2 data [] [] s hscan
                have := ih s.2.2 r' (fun f' hf' => hpure f' (by simp [hf'])) hrec
                simp [this, hdata]
      · rw [if_neg huse] at h
        exact ih data r (fun f' hf' => hpure f' (by simp [hf'])) h

/-- C9 counterexample: `Facet.sortresource` mutates its row — resolving
`dcterms_publisher` through the reference graph overwrites the row's URI
value with the publisher's label. -/
theorem c9_sortresource_mutates :
    (applySel .sortresource
        [("dcterms_publisher", .str "http://example.org/chapman_hall")]
        "dcterms_publisher"
        [(("http://example.org/chapman_hall", foafName), "Chapman & Hall")]).2 =
      [("dcterms_publisher", FValue.str "Chapman & Hall")] ∧
    [("dcterms_publisher", FValue.str "Chapman & Hall")] ≠
      [("dcterms_publisher", FValue.str "http://example.org/chapman_hall")] := by
  decide

/-! ## Concrete evaluations refuting or exhibiting claimed behaviour -/

/-- C1 counterexample: for the two-entry list `[1, 2]` (newest first) and
archivesize 1, concatenating the archive chunks oldest→newest and then the
main file yields `[2, 1]`, not the original `[1, 2]` — the blocks come out
in reverse chronological-block order. -/
theorem c1_concat_order_counterexample :
    (((news_write_atom [1, 2] 1).tail.map (·.entries)).flatten ++
        ((news_write_atom [1, 2] 1).headD emptyFile).entries) = [2, 1] ∧
    ([2, 1] : List Nat) ≠ [1, 2] := by decide

/-- C2 at the failing input: with no feed-enabled facets and two published
rows (updated timestamps 2 and 1, handed over newest first), `news_feedsets`
does return exactly the one synthetic "All" feedset with the single feed of
slug "main" and binding `None`, but `news_select_for_feeds` fills that feed
with the entries sorted by `updated` *ascending* — `[rowOld, rowNew]`,
oldest first — because the synthetic catch-all facet inherits
`key_descending = False` from the defaults; the claimed most-recent-first
order would be `[rowNew, rowOld]`. -/
theorem c2_all_feed_ascending_eval :
    news_feedsets [rowNew, rowOld] [] [] = .ok [allFeedset] ∧
    news_select_for_feeds [rowNew, rowOld] [allFeedset] [] [] =
      .ok [{ label := "All", predicate := none,
             feeds := [{ slug := "main", title := "All documents",
                         binding := none, value := .pynone,
                         entries := [rowOld, rowNew] }] }] ∧
    pyGet rowNew "updated" = .ok (.time 2) ∧
    pyGet rowOld "updated" = .ok (.time 1) ∧
    ([rowOld, rowNew] : List Row) ≠ [rowNew, rowOld] := by decide

/-- C4 counterexample: for 25 entries and archivesize 10 the next-archive
chain from the oldest chunk reaches the main file in 1 hop, not in
`ceil(25 / 10) - 1 = 2` hops as the claim's formula demands. -/
theorem c4_hops_counterexample :
    hopsToMain (news_write_atom (List.range 25) 10) 26
        ((news_write_atom (List.range 25) 10).tail.headD emptyFile) = some 1 ∧
    (25 + 10 - 1) / 10 - 1 = 2 ∧
    hopsToMain (news_write_atom (List.range 25) 10) 26
        ((news_write_atom (List.range 25) 10).tail.headD emptyFile) ≠
      some ((25 + 10 - 1) / 10 - 1) := by decide

/-- C5 counterexample: a `dcterms_issued` value of one of the three
accepted lengths but malformed content ("ABCDEFGHIJ", length 10) makes
`Facet.year` raise `ValueError`, which the `except KeyError` of
`toc_pagesets` does not catch: the whole pageset build aborts instead of
skipping the row. -/
theorem c5_valueerror_aborts :
    toc_pagesets [[("dcterms_issued", FValue.str "ABCDEFGHIJ")]]
        [mkFacet dctermsIssued] [] = .error .valueError := by decide

/-- C6 counterexample: two rows with issued dates 2010-01-01 and 2010-06-05
both select the group value "2010" under a facet whose identificator is the
raw date; the produced page's URL fragment is "2010-06-05" — the
identificator of the *last* row with that value — not the claimed
first-row fragment "2010-01-01". -/
theorem c6_fragment_first_counterexample :
    toc_pagesets [[("dcterms_issued", FValue.str "2010-01-01")],
                  [("dcterms_issued", FValue.str "2010-06-05")]]
        [facetYearIdent] [] =
      .ok [{ label := "Sorted by publication year", predicate := dctermsIssued,
             pages := [{ linktext := FValue.str "2010",
                         title := "Documents published in 2010",
                         binding := "dcterms_issued",
                         value := FValue.str "2010-06-05" }] }] ∧
    FValue.str "2010-06-05" ≠ FValue.str "2010-01-01" := by decide

/-- C7 counterexample: 5 entries with archivesize 10 produce no archive
chunk and a main file of all 5 entries — fewer than the claimed lower
bound of archivesize entries. -/
theorem c7_small_input_counterexample :
    ((news_write_atom (List.range 5) 10).headD emptyFile).entries.length = 5 ∧
    (news_write_atom (List.range 5) 10).tail = [] ∧
    ¬ (10 ≤ 5) := by decide

/-! ## Arithmetic of the chunking loop -/

theorem div_sub_self_aux (as n : Nat) (h1 : 1 ≤ as) (h2 : as ≤ n) :
    (n - as) / as = n / as - 1 := by
  have h3 : n = (n - as) + as := by omega
  have h4 : n / as = (n - as) / as + 1 := by
    conv_lhs => rw [h3]
    rw [Nat.add_div_right _ h1]
  rw [h4, Nat.add_sub_cancel]

theorem kChunks_step (as n : Nat) (h1 : 1 ≤ as) (h2 : 2 * as ≤ n) :
    kChunks as n = kChunks as (n - as) + 1 := by
  unfold kChunks
  rw [if_pos h2]
  have hfloor : 2 ≤ n / as := (Nat.le_div_iff_mul_le h1).mpr (by omega)
  by_cases h3 : 2 * as ≤ n - as
  · rw [if_pos h3, div_sub_self_aux as n h1 (by omega)]
    omega
  · rw [if_neg h3]
    have : n / as = 2 := Nat.div_eq_of_lt_le (by omega) (by omega)
    omega

theorem kChunks_pos_iff (as n : Nat) (h1 : 1 ≤ as) :
    0 < kChunks as n ↔ 2 * as ≤ n := by
  unfold kChunks
  by_cases h2 : 2 * as ≤ n
  · rw [if_pos h2]
    have hfloor : 2 ≤ n / as := (Nat.le_div_iff_mul_le h1).mpr (by omega)
    omega
  · rw [if_neg h2]
    omega

/-! ## Shape of the chunking loop's output -/

theorem splitLoopF_concat {α : Type} (as : Nat) (h : 1 ≤ as) :
    ∀ (fuel : Nat) (entries : List α) (cnt : Nat),
      entries.length ≤ fuel →
      (splitLoopF as fuel entries cnt).2.1 ++
        (((splitLoopF as fuel entries cnt).1.map (·.entries)).reverse).flatten =
        entries := by
  intro fuel
  induction fuel with
  | zero =>
    intro entries cnt hlen
    have : entries = [] := List.eq_nil_of_length_eq_zero (Nat.le_zero.mp hlen)
    subst this
    simp [splitLoopF]
  | succ fuel ih =>
    intro entries cnt hlen
    rw [splitLoopF]
    by_cases hg : 1 ≤ as ∧ 2 * as ≤ entries.length
    · rw [if_pos hg]
      simp only [List.map_cons, List.reverse_cons, List.flatten_append,
        List.flatten_cons, List.flatten_nil, List.append_nil]
      have hrem : (entries.take (entries.length - as)).length ≤ fuel := by
        simp [List.length_take]
        omega
      rw [← List.append_assoc, ih (entries.take (entries.length - as)) (cnt + 1) hrem]
      exact List.take_append_drop _ entries
    · rw [if_neg hg]
      simp

theorem splitLoopF_length {α : Type} (as : Nat) (h : 1 ≤ as) :
    ∀ (fuel : Nat) (entries : List α) (cnt : Nat), entries.length ≤ fuel →
      (splitLoopF as fuel entries cnt).1.length = kChunks as entries.length := by
  intro fuel
  induction fuel with
  | zero =>
    intro entries cnt hlen
    have he : entries = [] := List.eq_nil_of_length_eq_zero (Nat.le_zero.mp hlen)
    subst he
    simp [splitLoopF, kChunks]
  | succ fuel ih =>
    intro entries cnt hlen
    rw [splitLoopF]
    by_cases hg : 1 ≤ as ∧ 2 * as ≤ entries.length
    · rw [if_pos hg]
      have hrem : (entries.take (entries.length - as)).length ≤ fuel := by
        simp [List.length_take]; omega
      have hlen2 : (entries.take (entries.length - as)).length = entries.length - as := by
        simp [List.length_take]
      have h5 := ih (entries.take (entries.length - as)) (cnt + 1) hrem
      rw [hlen2] at h5
      simp only [List.length_cons, h5]
      exact (kChunks_step as entries.length h hg.2).symm
    · rw [if_neg hg]
      simp only [List.length_nil]
      unfold kChunks
      rw [if_neg (by omega)]

theorem splitLoopF_cnt {α : Type} (as : Nat) :
    ∀ (fuel : Nat) (entries : List α) (cnt : Nat),
      (splitLoopF as fuel entries cnt).2.2 =
        cnt + (splitLoopF as fuel entries cnt).1.length := by
  intro fuel
  induction fuel with
  | zero => intro entries cnt; simp [splitLoopF]
  | succ fuel ih =>
    intro entries cnt
    rw [splitLoopF]
    by_cases hg : 1 ≤ as ∧ 2 * as ≤ entries.length
    · rw [if_pos hg]
      simp only [List.length_cons]
      rw [ih]
      omega
    · rw [if_neg hg]; simp

theorem splitLoopF_rem {α : Type} (as : Nat) :
    ∀ (fuel : Nat) (entries : List α) (cnt : Nat),
      (splitLoopF as fuel entries cnt).2.1.length =
        entries.length - (splitLoopF as fuel entries cnt).1.length * as := by
  intro fuel
  induction fuel with
  | zero => intro entries cnt; simp [splitLoopF]
  | succ fuel ih =>
    intro entries cnt
    rw [splitLoopF]
    by_cases hg : 1 ≤ as ∧ 2 * as ≤ entries.length
    · rw [if_pos hg]
      simp only [List.length_cons]
      rw [ih]
      simp [List.length_take]
      ring_nf
      omega
    · rw [if_neg hg]; simp

theorem splitLoopF_chunk_len {α : Type} (as : Nat) :
    ∀ (fuel : Nat) (entries : List α) (cnt : Nat),
      ∀ f ∈ (splitLoopF as fuel entries cnt).1, f.entries.length = as := by
  intro fuel
  induction fuel with
  | zero => intro entries cnt f hf; simp [splitLoopF] at hf
  | succ fuel ih =>
    intro entries cnt f hf
    rw [splitLoopF] at hf
    by_cases hg : 1 ≤ as ∧ 2 * as ≤ entries.length
    · rw [if_pos hg] at hf
      rcases List.mem_cons.mp hf with heq | hmem
      · subst heq
        simp [List.length_drop]
        omega
      · exact ih _ _ f hmem
    · rw [if_neg hg] at hf; simp at hf

theorem prevIfEq (c : Nat) :
    (if 1 < c + 1 then some (AtomRef.archive (c + 1 - 1)) else none) =
      (if c = 0 then none else some (.archive c)) := by
  rcases c with _ | c
  · simp
  · simp
/-- What the loop produces, in closed form: chunk `i` (0-based) carries the
slice `[n - (i+1)·as, n - i·as)` of the input together with the chain
links of the source. -/
theorem splitLoopF_chunks_eq {α : Type} (as : Nat) (h : 1 ≤ as) :
    ∀ (fuel : Nat) (entries : List α) (cnt : Nat), entries.length ≤ fuel →
      (splitLoopF as fuel entries cnt).1 =
        (List.range (kChunks as entries.length)).map (fun i =>
          { entries := (entries.drop (entries.length - (i + 1) * as)).take as,
            suffix := some (cnt + i + 1),
            prevarchive := if cnt + i = 0 then none else some (.archive (cnt + i)),
            nextarchive := some (if i + 1 = kChunks as entries.length
              then AtomRef.mainfile else .archive (cnt + i + 2)) }) := by
  intro fuel
  induction fuel with
  | zero =>
    intro entries cnt hlen
    have he : entries = [] := List.eq_nil_of_length_eq_zero (Nat.le_zero.mp hlen)
    subst he
    have hk : kChunks as 0 = 0 := by unfold kChunks; rw [if_neg (by omega)]
    simp [splitLoopF, hk]
  | succ fuel ih =>
    intro entries cnt hlen
    by_cases hg : 1 ≤ as ∧ 2 * as ≤ entries.length
    case neg =>
      rw [splitLoopF, if_neg hg]
      have hk : kChunks as entries.length = 0 := by
        unfold kChunks; rw [if_neg (by omega)]
      simp [hk]
    case pos =>
    have hlen2 : (entries.take (entries.length - as)).length = entries.length - as := by
      rw [List.length_take]; omega
    have hrem : (entries.take (entries.length - as)).length ≤ fuel := by omega
    have hstep := kChunks_step as entries.length h hg.2
    have hk1 : 1 ≤ kChunks as entries.length := by
      have := (kChunks_pos_iff as entries.length h).mpr hg.2
      omega
    have hkz : (0 < kChunks as (entries.length - as)) ↔ 2 * as ≤ entries.length - as :=
      kChunks_pos_iff as (entries.length - as) h
    have hrange : List.range (kChunks as entries.length) =
        0 :: (List.range (kChunks as entries.length - 1)).map Nat.succ := by
      conv_lhs => rw [show kChunks as entries.length =
        (kChunks as entries.length - 1) + 1 by omega]
      exact List.range_succ_eq_map _
    rw [splitLoopF, if_pos hg, hrange]
    simp only [List.map_cons, List.map_map]
    congr 1
    · -- the head chunk
      have hd : entries.drop (entries.length - as) =
          (entries.drop (entries.length - (0 + 1) * as)).take as := by
        rw [List.take_of_length_le]
        · congr 1; omega
        · rw [List.length_drop]; omega
      simp only [ArchiveFile.mk.injEq]
      refine ⟨hd, by simp, ?_, ?_⟩
      · rcases cnt with _ | c <;> simp
      · simp only [hlen2]
        by_cases hcond : entries.length - as < 2 * as
        · rw [if_pos hcond, if_pos (by omega)]
        · rw [if_neg hcond, if_neg (by omega)]
    · -- the later chunks
      have hk' : kChunks as entries.length - 1 = kChunks as (entries.length - as) := by
        omega
      rw [ih _ (cnt + 1) hrem, hlen2, hk']
      apply List.map_congr_left
      intro i hi
      have hi' : i < kChunks as (entries.length - as) := List.mem_range.mp hi
      have hk'le : kChunks as (entries.length - as) ≤ (entries.length - as) / as := by
        unfold kChunks
        split
        · exact Nat.sub_le _ _
        · exact Nat.zero_le _
      have hle : (i + 1) * as ≤ entries.length - as :=
        Nat.le_trans
          (Nat.mul_le_mul_right as (Nat.le_trans hi' hk'le))
          (Nat.div_mul_le_self _ _)
      have hmul : (i + 1 + 1) * as = (i + 1) * as + as := by ring
      have hent : ((entries.take (entries.length - as)).drop
            ((entries.length - as) - (i + 1) * as)).take as =
          (entries.drop (entries.length - (i + 1 + 1) * as)).take as := by
        rw [List.drop_take, List.take_take]
        have h2 : (entries.length - as) - ((entries.length - as) - (i + 1) * as) =
            (i + 1) * as := by omega
        rw [h2]
        have h3 : min as ((i + 1) * as) = as := by
          apply Nat.min_eq_left
          calc as = 1 * as := (Nat.one_mul as).symm
            _ ≤ (i + 1) * as := Nat.mul_le_mul_right as (by omega)
        rw [h3]
        congr 2
        omega
      have hc : cnt + 1 + i = cnt + (i + 1) := by omega
      have hnext2 : (i + 1 = kChunks as (entries.length - as)) =
          (i + 1 + 1 = kChunks as entries.length) := by
        simp only [eq_iff_iff]
        omega
      simp only [Function.comp, Nat.succ_eq_add_one, hent, hc, hnext2]

/-- In a file list whose suffixes run `cnt+1, cnt+2, …`, looking a chunk
reference up finds exactly the named chunk. -/
theorem find_by_suffix {α : Type} :
    ∀ (l : List (ArchiveFile α)) (cnt j : Nat)
      (hsuf : ∀ (idx : Fin l.length), (l.get idx).suffix = some (cnt + idx.val + 1))
      (hj : j < l.length),
      l.find? (refMatches (.archive (cnt + j + 1))) = some (l.get ⟨j, hj⟩) := by
  intro l
  induction l with
  | nil => intro cnt j hsuf hj; simp at hj
  | cons c rest ih =>
    intro cnt j hsuf hj
    have hc : c.suffix = some (cnt + 0 + 1) := hsuf ⟨0, by simp⟩
    rcases j with _ | j
    · rw [List.find?_cons_of_pos]
      · rfl
      · simp [refMatches, hc]
    · rw [List.find?_cons_of_neg]
      · have hrest : ∀ (idx : Fin rest.length),
            (rest.get idx).suffix = some ((cnt + 1) + idx.val + 1) := by
          intro idx
          have := hsuf ⟨idx.val + 1, by simp⟩
          simp only [List.get_cons_succ] at this
          rw [this]
          congr 1
          omega
        have hj' : j < rest.length := by simpa using hj
        have := ih (cnt + 1) j hrest hj'
        have harg : cnt + 1 + j + 1 = cnt + (j + 1) + 1 := by omega
        rw [harg] at this
        rw [this]
        rfl
      · simp [refMatches, hc]

/-- The indexed form of one produced chunk (loop started at `cnt = 0`, as
`news_write_atom` does). -/
theorem chunk_get {α : Type} (as : Nat) (h : 1 ≤ as) (entries : List α) (i : Nat)
    (hi : i < (splitLoop as entries 0).1.length) :
    (splitLoop as entries 0).1.get ⟨i, hi⟩ =
      { entries := (entries.drop (entries.length - (i + 1) * as)).take as,
        suffix := some (i + 1),
        prevarchive := if i = 0 then none else some (.archive i),
        nextarchive := some (if i + 1 = (splitLoop as entries 0).1.length
          then AtomRef.mainfile else .archive (i + 2)) } := by
  have hceq : (splitLoop as entries 0).1 =
      (List.range (kChunks as entries.length)).map (fun i =>
        { entries := (entries.drop (entries.length - (i + 1) * as)).take as,
          suffix := some (0 + i + 1),
          prevarchive := if 0 + i = 0 then none else some (.archive (0 + i)),
          nextarchive := some (if i + 1 = kChunks as entries.length
            then AtomRef.mainfile else .archive (0 + i + 2)) }) :=
    splitLoopF_chunks_eq as h entries.length entries 0 (Nat.le_refl _)
  have hlen : (splitLoop as entries 0).1.length = kChunks as entries.length :=
    splitLoopF_length as h entries.length entries 0 (Nat.le_refl _)
  rw [List.get_eq_getElem, List.getElem_of_eq hceq hi]
  simp only [List.getElem_map, List.getElem_range, Nat.zero_add]
  simp only [hlen]

/-- Looking up an archive reference in the `news_write_atom` output finds
the named chunk. -/
theorem find_in_out {α : Type} (as : Nat) (h : 1 ≤ as) (entries : List α) (j : Nat)
    (hj : j < (splitLoop as entries 0).1.length) :
    (news_write_atom entries as).find? (refMatches (.archive (j + 1))) =
      some ((splitLoop as entries 0).1.get ⟨j, hj⟩) := by
  have hsuf : ∀ (idx : Fin (splitLoop as entries 0).1.length),
      ((splitLoop as entries 0).1.get idx).suffix = some (0 + idx.val + 1) := by
    intro idx
    rw [chunk_get as h entries idx.val idx.isLt]
    simp
  rw [news_write_atom]
  rw [List.find?_cons_of_neg _ (by simp [refMatches])]
  have := find_by_suffix (splitLoop as entries 0).1 0 j hsuf hj
  simpa using this

/-- Walking the `next-archive` chain: from the chunk `d + 1` places before
the end, the main file is `d + 1` hops away. -/
theorem hops_aux {α : Type} (as : Nat) (h : 1 ≤ as) (entries : List α) :
    ∀ (d i : Nat) (hi : i < (splitLoop as entries 0).1.length),
      i + d + 1 = (splitLoop as entries 0).1.length →
      ∀ fuel, d + 2 ≤ fuel →
      hopsToMain (news_write_atom entries as) fuel
        ((splitLoop as entries 0).1.get ⟨i, hi⟩) = some (d + 1) := by
  intro d
  induction d with
  | zero =>
    intro i hi hsum fuel hf
    rcases fuel with _ | fuel
    · omega
    rw [chunk_get as h entries i hi, hopsToMain]
    rw [if_neg (by simp)]
    simp only
    rw [if_pos (by omega)]
    have hmain : (news_write_atom entries as).find? (refMatches .mainfile) =
        some { entries := (splitLoop as entries 0).2.1, suffix := none,
               prevarchive := some (.archive (splitLoop as entries 0).2.2),
               nextarchive := none } := by
      rw [news_write_atom]
      exact List.find?_cons_of_pos _ (by simp [refMatches])
    rw [hmain]
    show Option.map (· + 1)
      (hopsToMain (news_write_atom entries as) fuel
        { entries := (splitLoop as entries 0).2.1, suffix := none,
          prevarchive := some (.archive (splitLoop as entries 0).2.2),
          nextarchive := none }) = some (0 + 1)
    rcases fuel with _ | fuel
    · omega
    rw [hopsToMain, if_pos rfl]
    rfl
  | succ d ih =>
    intro i hi hsum fuel hf
    rcases fuel with _ | fuel
    · omega
    rw [chunk_get as h entries i hi, hopsToMain]
    rw [if_neg (by simp)]
    simp only
    rw [if_neg (by omega)]
    have hj : i + 1 < (splitLoop as entries 0).1.length := by omega
    have hfind := find_in_out as h entries (i + 1) hj
    have harg : i + 1 + 1 = i + 2 := by omega
    rw [harg] at hfind
    rw [hfind]
    show Option.map (· + 1)
      (hopsToMain (news_write_atom entries as) fuel
        ((splitLoop as entries 0).1.get ⟨i + 1, hj⟩)) = some (d + 1 + 1)
    rw [ih (i + 1) hj (by omega) fuel (by omega)]
    rfl

/-- C4 (amended): in the archive splitter output, chunk 1 (index 0) carries
no prev-archive reference; every later chunk's prev-archive names the chunk
one older; every chunk's next-archive names the next chunk, or the main
file when it is the newest chunk; the main file's prev-archive names chunk
K — the newest chunk when K ≥ 1, and the nonexistent chunk 0 when no chunk
was cut; K equals `max(0, floor(N / archivesize) − 1)`, and following
next-archive links from the oldest chunk reaches the main file in exactly
K hops without cycles (the walk terminates within the file count). -/
theorem c4_archive_links {α : Type} (entries : List α) (as : Nat) (h : 1 ≤ as) :
    (∀ (i : Nat) (hi : i < (splitLoop as entries 0).1.length),
      ((splitLoop as entries 0).1.get ⟨i, hi⟩).suffix = some (i + 1) ∧
      ((splitLoop as entries 0).1.get ⟨i, hi⟩).prevarchive =
        (if i = 0 then none else some (.archive i)) ∧
      ((splitLoop as entries 0).1.get ⟨i, hi⟩).nextarchive =
        some (if i + 1 = (splitLoop as entries 0).1.length then AtomRef.mainfile
              else .archive (i + 2))) ∧
    (news_write_atom entries as).head? = some
      { entries := (splitLoop as entries 0).2.1, suffix := none,
        prevarchive := some (.archive (splitLoop as entries 0).1.length),
        nextarchive := none } ∧
    (splitLoop as entries 0).1.length =
      (if 2 * as ≤ entries.length then entries.length / as - 1 else 0) ∧
    (∀ (hne : 0 < (splitLoop as entries 0).1.length),
      hopsToMain (news_write_atom entries as) ((news_write_atom entries as).length)
        ((splitLoop as entries 0).1.get ⟨0, hne⟩) =
        some ((splitLoop as entries 0).1.length)) := by
  refine ⟨?_, ?_, ?_, ?_⟩
  · intro i hi
    rw [chunk_get as h entries i hi]
    exact ⟨rfl, rfl, rfl⟩
  · have hcnt : (splitLoop as entries 0).2.2 = (splitLoop as entries 0).1.length := by
      have := splitLoopF_cnt as entries.length entries 0
      simpa using this
    rw [news_write_atom]
    simp [hcnt]
  · have hl : (splitLoop as entries 0).1.length = kChunks as entries.length :=
      splitLoopF_length as h entries.length entries 0 (Nat.le_refl _)
    rw [hl]
    rfl
  · intro hne
    have hlenout : (news_write_atom entries as).length =
        (splitLoop as entries 0).1.length + 1 := by
      rw [news_write_atom]
      rfl
    have := hops_aux as h entries ((splitLoop as entries 0).1.length - 1) 0 hne
      (by omega) ((news_write_atom entries as).length) (by omega)
    rw [this]
    congr 1
    omega

/-- C7 (amended): the splitter cuts the oldest archivesize entries into a
new chunk exactly while the remaining count is at least 2 × archivesize,
so every archive chunk holds exactly archivesize entries and there are
`max(0, floor(N / archivesize) − 1)` of them; the main file holds the rest
— between archivesize and 2 × archivesize − 1 entries whenever the input
has at least archivesize entries, and all N entries (fewer than
archivesize) otherwise. In particular 25 entries with archivesize 10 give
one chunk of 10 plus a main file of 15, and 30 give two chunks of 10 plus
a main file of 10. -/
theorem c7_chunk_sizes {α : Type} (entries : List α) (as : Nat) (h : 1 ≤ as) :
    (∀ f ∈ (splitLoop as entries 0).1, f.entries.length = as) ∧
    (splitLoop as entries 0).1.length =
      (if 2 * as ≤ entries.length then entries.length / as - 1 else 0) ∧
    (splitLoop as entries 0).2.1.length =
      entries.length - (splitLoop as entries 0).1.length * as ∧
    (as ≤ entries.length → as ≤ (splitLoop as entries 0).2.1.length ∧
      (splitLoop as entries 0).2.1.length ≤ 2 * as - 1) ∧
    (entries.length < as → (splitLoop as entries 0).2.1.length = entries.length) := by
  have hrem : (splitLoop as entries 0).2.1.length =
      entries.length - (splitLoop as entries 0).1.length * as :=
    splitLoopF_rem as entries.length entries 0
  have hlenK : (splitLoop as entries 0).1.length = kChunks as entries.length :=
    splitLoopF_length as h entries.length entries 0 (Nat.le_refl _)
  refine ⟨?_, ?_, hrem, ?_, ?_⟩
  · exact splitLoopF_chunk_len as entries.length entries 0
  · rw [hlenK]; rfl
  · intro hNas
    by_cases h2 : 2 * as ≤ entries.length
    · have hdm := Nat.div_add_mod entries.length as
      have hmod : entries.length % as < as := Nat.mod_lt _ (by omega)
      have hK : (splitLoop as entries 0).1.length = entries.length / as - 1 := by
        rw [hlenK]; unfold kChunks; rw [if_pos h2]
      have hKas : (entries.length / as - 1) * as =
          as * (entries.length / as) - as := by
        rw [Nat.sub_mul, Nat.one_mul, Nat.mul_comm]
      rw [hrem, hK, hKas]
      generalize hP : as * (entries.length / as) = P at hdm ⊢
      generalize hr : entries.length % as = r at hdm hmod
      omega
    · have hK : (splitLoop as entries 0).1.length = 0 := by
        rw [hlenK]; unfold kChunks; rw [if_neg h2]
      rw [hrem, hK]
      omega
  · intro hNas
    have hK : (splitLoop as entries 0).1.length = 0 := by
      rw [hlenK]; unfold kChunks; rw [if_neg (by omega)]
    rw [hrem, hK]
    omega

/-! ## C1 — archive round-trip -/

/-- C1 (amended): for every input list (sorted newest first) and
archivesize ≥ 1, the splitter partitions the entries — concatenating the
main file followed by the archive chunks from newest to oldest reproduces
the original list exactly, and concatenating the chunks oldest→newest
followed by the main file yields a permutation of the original list: every
entry appears exactly once, none missing, none duplicated (it is the block
order, not the multiset, that differs from the claimed reading). -/
theorem c1_archive_roundtrip {α : Type} (entries : List α) (as : Nat) (h : 1 ≤ as) :
    news_write_atom entries as =
      { entries := (splitLoop as entries 0).2.1, suffix := none,
        prevarchive := some (.archive (splitLoop as entries 0).2.2),
        nextarchive := none } :: (splitLoop as entries 0).1 ∧
    (splitLoop as entries 0).2.1 ++
      (((splitLoop as entries 0).1.map (·.entries)).reverse).flatten = entries ∧
    (((splitLoop as entries 0).1.map (·.entries)).flatten ++
      (splitLoop as entries 0).2.1).Perm entries := by
  have hconc := splitLoopF_concat as h entries.length entries 0 (Nat.le_refl _)
  refine ⟨rfl, hconc, ?_⟩
  have p1 : (((splitLoop as entries 0).1.map (·.entries)).flatten ++
      (splitLoop as entries 0).2.1).Perm
      ((splitLoop as entries 0).2.1 ++
        ((splitLoop as entries 0).1.map (·.entries)).flatten) :=
    List.perm_append_comm
  have p2 : ((splitLoop as entries 0).2.1 ++
      ((splitLoop as entries 0).1.map (·.entries)).flatten).Perm
      ((splitLoop as entries 0).2.1 ++
        (((splitLoop as entries 0).1.map (·.entries)).reverse).flatten) :=
    List.Perm.append_left _ (List.Perm.flatten (List.reverse_perm _).symm)
  have hconc2 : (splitLoop as entries 0).2.1 ++
      (((splitLoop as entries 0).1.map (·.entries)).reverse).flatten = entries := hconc
  have p3 := p1.trans p2
  rw [hconc2] at p3
  exact p3

/-- C1 witness: the round-trip at entries `[1, 2]` and archivesize 1. -/
theorem c1_archive_roundtrip_witness :
    (1 ≤ 1) ∧
    (news_write_atom ([1, 2] : List Nat) 1 =
      { entries := (splitLoop 1 ([1, 2] : List Nat) 0).2.1, suffix := none,
        prevarchive := some (.archive (splitLoop 1 ([1, 2] : List Nat) 0).2.2),
        nextarchive := none } :: (splitLoop 1 ([1, 2] : List Nat) 0).1 ∧
    (splitLoop 1 ([1, 2] : List Nat) 0).2.1 ++
      (((splitLoop 1 ([1, 2] : List Nat) 0).1.map (·.entries)).reverse).flatten =
        [1, 2] ∧
    (((splitLoop 1 ([1, 2] : List Nat) 0).1.map (·.entries)).flatten ++
      (splitLoop 1 ([1, 2] : List Nat) 0).2.1).Perm [1, 2]) :=
  ⟨Nat.le_refl 1, c1_archive_roundtrip [1, 2] 1 (Nat.le_refl 1)⟩

/-- C4 witness: the link structure and hop count at 25 entries and
archivesize 10. -/
theorem c4_archive_links_witness :
    (1 ≤ 10) ∧
    ((∀ (i : Nat) (hi : i < (splitLoop 10 (List.range 25) 0).1.length),
      ((splitLoop 10 (List.range 25) 0).1.get ⟨i, hi⟩).suffix = some (i + 1) ∧
      ((splitLoop 10 (List.range 25) 0).1.get ⟨i, hi⟩).prevarchive =
        (if i = 0 then none else some (.archive i)) ∧
      ((splitLoop 10 (List.range 25) 0).1.get ⟨i, hi⟩).nextarchive =
        some (if i + 1 = (splitLoop 10 (List.range 25) 0).1.length
              then AtomRef.mainfile else .archive (i + 2))) ∧
    (news_write_atom (List.range 25) 10).head? = some
      { entries := (splitLoop 10 (List.range 25) 0).2.1, suffix := none,
        prevarchive := some (.archive (splitLoop 10 (List.range 25) 0).1.length),
        nextarchive := none } ∧
    (splitLoop 10 (List.range 25) 0).1.length =
      (if 2 * 10 ≤ (List.range 25).length then (List.range 25).length / 10 - 1
       else 0) ∧
    (∀ (hne : 0 < (splitLoop 10 (List.range 25) 0).1.length),
      hopsToMain (news_write_atom (List.range 25) 10)
        ((news_write_atom (List.range 25) 10).length)
        ((splitLoop 10 (List.range 25) 0).1.get ⟨0, hne⟩) =
        some ((splitLoop 10 (List.range 25) 0).1.length))) :=
  ⟨by omega, c4_archive_links (List.range 25) 10 (by omega)⟩

/-- C7 witness: the chunk sizes at 25 entries and archivesize 10 (one
chunk of 10, main file of 15). -/
theorem c7_chunk_sizes_witness :
    (1 ≤ 10) ∧
    ((∀ f ∈ (splitLoop 10 (List.range 25) 0).1, f.entries.length = 10) ∧
    (splitLoop 10 (List.range 25) 0).1.length =
      (if 2 * 10 ≤ (List.range 25).length then (List.range 25).length / 10 - 1
       else 0) ∧
    (splitLoop 10 (List.range 25) 0).2.1.length =
      (List.range 25).length - (splitLoop 10 (List.range 25) 0).1.length * 10 ∧
    (10 ≤ (List.range 25).length →
      10 ≤ (splitLoop 10 (List.range 25) 0).2.1.length ∧
      (splitLoop 10 (List.range 25) 0).2.1.length ≤ 2 * 10 - 1) ∧
    ((List.range 25).length < 10 →
      (splitLoop 10 (List.range 25) 0).2.1.length = (List.range 25).length)) :=
  ⟨by omega, c7_chunk_sizes (List.range 25) 10 (by omega)⟩

/-- The concrete 25- and 30-entry scenarios of C7: one chunk of 10 with a
main file of 15, and two chunks of 10 with a main file of 10. -/
theorem chunk_scenarios :
    ((news_write_atom (List.range 25) 10).map (·.entries.length)) = [15, 10] ∧
    ((news_write_atom (List.range 30) 10).map (·.entries.length)) = [10, 10, 10] := by
  decide

/-! ## Dictionary, sorting and scan lemmas for the TOC claims -/

theorem lookupF_pySetF (frags : List (FValue × FValue)) (k v k' : FValue) :
    lookupF (pySetF frags k v) k' = if k' = k then some v else lookupF frags k' := by
  induction frags with
  | nil =>
    by_cases h : k' = k
    · subst h; simp [pySetF, lookupF]
    · have h2 : ¬ k = k' := fun hc => h hc.symm
      simp [pySetF, lookupF, h, h2]
  | cons p rest ih =>
    rcases p with ⟨pk, pv⟩
    by_cases h1 : pk = k
    · subst h1
      by_cases h2 : k' = pk
      · subst h2; simp [pySetF, lookupF]
      · have h3 : ¬ pk = k' := fun hc => h2 hc.symm
        simp [pySetF, lookupF, h2, h3]
    · by_cases h2 : pk = k'
      · subst h2
        simp [pySetF, lookupF, h1]
      · simp [pySetF, lookupF, h1, h2, ih]

theorem exceptBind_ok {α β : Type} (a : α) (f : α → Except PyErr β) :
    (Except.ok a >>= f) = f a := rfl

theorem insertAscE_ok {α : Type} (le : α → α → Except PyErr Bool) (x : α) :
    ∀ l : List α, (∀ y ∈ l, (le y x).isOk = true) →
      ∃ out, insertAscE le x l = .ok out ∧ ∀ a, a ∈ out ↔ a = x ∨ a ∈ l := by
  intro l
  induction l with
  | nil => exact fun _ => ⟨[x], rfl, by simp⟩
  | cons y ys ih =>
    intro hall
    have hy := hall y (by simp)
    rcases hle : le y x with e | b
    · rw [hle] at hy
      simp [Except.isOk, Except.toBool] at hy
    · rcases b with _ | _
      · refine ⟨x :: y :: ys, ?_, fun a => List.mem_cons⟩
        rw [insertAscE, hle]
      · obtain ⟨out, hout, hmem⟩ := ih (fun z hz => hall z (by simp [hz]))
        refine ⟨y :: out, ?_, ?_⟩
        · rw [insertAscE, hle, hout]
          rfl
        · intro a
          simp only [List.mem_cons, hmem]
          tauto

theorem insertDescE_ok {α : Type} (le : α → α → Except PyErr Bool) (x : α) :
    ∀ l : List α, (∀ y ∈ l, (le x y).isOk = true) →
      ∃ out, insertDescE le x l = .ok out ∧ ∀ a, a ∈ out ↔ a = x ∨ a ∈ l := by
  intro l
  induction l with
  | nil => exact fun _ => ⟨[x], rfl, by simp⟩
  | cons y ys ih =>
    intro hall
    have hy := hall y (by simp)
    rcases hle : le x y with e | b
    · rw [hle] at hy
      simp [Except.isOk, Except.toBool] at hy
    · rcases b with _ | _
      · refine ⟨x :: y :: ys, ?_, fun a => List.mem_cons⟩
        rw [insertDescE, hle]
      · obtain ⟨out, hout, hmem⟩ := ih (fun z hz => hall z (by simp [hz]))
        refine ⟨y :: out, ?_, ?_⟩
        · rw [insertDescE, hle, hout]
          rfl
        · intro a
          simp only [List.mem_cons, hmem]
          tauto

theorem foldInsertAscE_ok {α : Type} (le : α → α → Except PyErr Bool)
    (S : α → Prop) (hcomp : ∀ a b, S a → S b → (le a b).isOk = true) :
    ∀ (l acc : List α), (∀ a ∈ l, S a) → (∀ a ∈ acc, S a) →
      ∃ out, l.foldlM (fun acc x => insertAscE le x acc) acc = .ok out ∧
        ∀ a, a ∈ out ↔ a ∈ acc ∨ a ∈ l := by
  intro l
  induction l with
  | nil => intro acc _ _; exact ⟨acc, rfl, by simp⟩
  | cons x xs ih =>
    intro acc hl hacc
    obtain ⟨out1, hout1, hmem1⟩ := insertAscE_ok le x acc
      (fun y hy => hcomp y x (hacc y hy) (hl x (by simp)))
    obtain ⟨out, hout, hmem⟩ := ih out1
      (fun a ha => hl a (by simp [ha]))
      (fun a ha => by
        rcases (hmem1 a).mp ha with h | h
        · exact h ▸ hl x (by simp)
        · exact hacc a h)
    refine ⟨out, ?_, ?_⟩
    · rw [List.foldlM_cons, hout1, exceptBind_ok, hout]
    · intro a
      simp only [hmem, hmem1, List.mem_cons]
      tauto

theorem foldInsertDescE_ok {α : Type} (le : α → α → Except PyErr Bool)
    (S : α → Prop) (hcomp : ∀ a b, S a → S b → (le a b).isOk = true) :
    ∀ (l acc : List α), (∀ a ∈ l, S a) → (∀ a ∈ acc, S a) →
      ∃ out, l.foldlM (fun acc x => insertDescE le x acc) acc = .ok out ∧
        ∀ a, a ∈ out ↔ a ∈ acc ∨ a ∈ l := by
  intro l
  induction l with
  | nil => intro acc _ _; exact ⟨acc, rfl, by simp⟩
  | cons x xs ih =>
    intro acc hl hacc
    obtain ⟨out1, hout1, hmem1⟩ := insertDescE_ok le x acc
      (fun y hy => hcomp x y (hl x (by simp)) (hacc y hy))
    obtain ⟨out, hout, hmem⟩ := ih out1
      (fun a ha => hl a (by simp [ha]))
      (fun a ha => by
        rcases (hmem1 a).mp ha with h | h
        · exact h ▸ hl x (by simp)
        · exact hacc a h)
    refine ⟨out, ?_, ?_⟩
    · rw [List.foldlM_cons, hout1, exceptBind_ok, hout]
    · intro a
      simp only [hmem, hmem1, List.mem_cons]
      tauto

/-- `sorted` succeeds — and keeps exactly the input's elements — whenever
all pairwise comparisons of input elements are defined. -/
theorem pySorted_ok {α : Type} (le : α → α → Except PyErr Bool)
    (l : List α) (rev : Bool)
    (hcomp : ∀ a ∈ l, ∀ b ∈ l, (le a b).isOk = true) :
    ∃ out, pySorted le l rev = .ok out ∧ ∀ a, a ∈ out ↔ a ∈ l := by
  unfold pySorted
  rcases rev with _ | _
  · rw [if_neg (by simp)]
    obtain ⟨out, hout, hmem⟩ := foldInsertAscE_ok le (· ∈ l)
      (fun a b ha hb => hcomp a ha b hb) l [] (fun a ha => ha) (by simp)
    exact ⟨out, hout, fun a => by simpa using hmem a⟩
  · rw [if_pos rfl]
    obtain ⟨out, hout, hmem⟩ := foldInsertDescE_ok le (· ∈ l)
      (fun a b ha hb => hcomp a ha b hb) l [] (fun a ha => ha) (by simp)
    exact ⟨out, hout, fun a => by simpa using hmem a⟩

theorem selectorScan_proj_skip (f : Facet) (g : Graph) (b : String) (row : Row)
    (hrow : applySel f.selector row b g = (.error .keyError, row)) :
    ∀ (pre post : List Row) (vals : List FValue) (frags : List (FValue × FValue)),
      (selectorScan f g b (pre ++ row :: post) vals frags).map (fun r => (r.1, r.2.1)) =
      (selectorScan f g b (pre ++ post) vals frags).map (fun r => (r.1, r.2.1)) := by
  intro pre
  induction pre with
  | nil =>
    intro post vals frags
    simp only [List.nil_append]
    rw [selectorScan, hrow]
    rcases hrec : selectorScan f g b post vals frags with e | r
    · rfl
    · rfl
  | cons p pre ih =>
    intro post vals frags
    simp only [List.cons_append]
    rw [selectorScan, selectorScan]
    rcases hsel : applySel f.selector p b g with ⟨res, p'⟩
    rcases res with e | selected
    · rcases e with _ | _ | _ | _
      · -- keyError: both recurse
        simp only
        rcases h1 : selectorScan f g b (pre ++ row :: post) vals frags with e1 | r1 <;>
          rcases h2 : selectorScan f g b (pre ++ post) vals frags with e2 | r2 <;>
            have := ih post vals frags <;> rw [h1, h2] at this <;>
              simp only [Except.map] at this ⊢
        · exact this
        · exact this
        · exact this
        · simpa using this
      all_goals rfl
    · simp only
      rcases hid : applySel f.identificator p' b g with ⟨res2, p''⟩
      rcases res2 with e | frag
      · rcases e with _ | _ | _ | _
        · simp only
          rcases h1 : selectorScan f g b (pre ++ row :: post)
              (if selected ∈ vals then vals else vals ++ [selected]) frags with e1 | r1 <;>
            rcases h2 : selectorScan f g b (pre ++ post)
                (if selected ∈ vals then vals else vals ++ [selected]) frags with e2 | r2 <;>
              have := ih post (if selected ∈ vals then vals else vals ++ [selected]) frags <;>
                rw [h1, h2] at this <;> simp only [Except.map] at this ⊢
          · exact this
          · exact this
          · exact this
          · simpa using this
        all_goals rfl
      · simp only
        rcases h1 : selectorScan f g b (pre ++ row :: post)
            (if selected ∈ vals then vals else vals ++ [selected])
            (pySetF frags selected frag) with e1 | r1 <;>
          rcases h2 : selectorScan f g b (pre ++ post)
              (if selected ∈ vals then vals else vals ++ [selected])
              (pySetF frags selected frag) with e2 | r2 <;>
            have := ih post (if selected ∈ vals then vals else vals ++ [selected])
                (pySetF frags selected frag) <;>
              rw [h1, h2] at this <;> simp only [Except.map] at this ⊢
        · exact this
        · exact this
        · exact this
        · simpa using this

theorem toc_single (f : Facet) (g : Graph) (data : List Row) :
    toc_pagesets data [f] g =
      (if f.use_for_toc then
        (pyFormat f.label [("term", (facetBinding f).2)]).bind (fun lab =>
          ((selectorScan f g (facetBinding f).1 data [] []).map
              (fun r => (r.1, r.2.1))).bind
            (fun vf =>
              (buildPages f (facetBinding f).1 (facetBinding f).2 vf.1 vf.2).map
                (fun pages => [{ label := lab, predicate := f.rdftype,
                                 pages := pages }])))
       else .ok []) := by
  unfold toc_pagesets tocPagesetsGo
  by_cases huse : f.use_for_toc
  · rw [if_pos huse, if_pos huse]
    rcases hfmt : pyFormat f.label [("term", (facetBinding f).2)] with e | lab
    · rfl
    · rcases hscan : selectorScan f g (facetBinding f).1 data [] [] with e | r
      · rfl
      · rcases hbuild : buildPages f (facetBinding f).1 (facetBinding f).2 r.1 r.2.1
            with e | pages
        · simp [Except.map, Except.bind, hbuild]
        · simp [Except.map, Except.bind, hbuild, tocPagesetsGo]
  · rw [if_neg huse, if_neg huse]
    rfl

theorem mapM_isOk {α β : Type} (fn : α → Except PyErr β) :
    ∀ (l : List α), (∀ x ∈ l, (fn x).isOk = true) → ∃ ys, l.mapM fn = .ok ys := by
  intro l
  induction l with
  | nil => intro _; exact ⟨[], rfl⟩
  | cons x xs ih =>
    intro hall
    have hx := hall x (by simp)
    rcases hfx : fn x with e | y
    · rw [hfx] at hx; cases hx
    · obtain ⟨ys, hys⟩ := ih (fun z hz => hall z (by simp [hz]))
      refine ⟨y :: ys, ?_⟩
      rw [List.mapM_cons, hfx, hys]
      rfl

theorem selectorScan_ok (f : Facet) (g : Graph) (b : String) (P : FValue → Prop)
    (hpure : ∀ (row : Row), (applySel f.selector row b g).2 = row)
    (hsel : ∀ (row : Row) (e : PyErr),
      (applySel f.selector row b g).1 = .error e → e = .keyError)
    (hid : ∀ (row : Row) (e : PyErr),
      (applySel f.identificator row b g).1 = .error e → e = .keyError)
    (hboth : ∀ (row : Row) (v : FValue), (applySel f.selector row b g).1 = .ok v →
      ((applySel f.identificator row b g).1).isOk = true)
    (hP : ∀ (row : Row) (v : FValue),
      (applySel f.selector row b g).1 = .ok v → P v) :
    ∀ (data : List Row) (vals : List FValue) (frags : List (FValue × FValue)),
      (∀ v ∈ vals, (lookupF frags v).isSome = true ∧ P v) →
      ∃ r, selectorScan f g b data vals frags = .ok r ∧
        (∀ v ∈ r.1, (lookupF r.2.1 v).isSome = true ∧ P v) := by
  intro data
  induction data with
  | nil =>
    intro vals frags hinv
    exact ⟨(vals, frags, []), rfl, hinv⟩
  | cons row rest ih =>
    intro vals frags hinv
    rw [selectorScan]
    rcases hselr : applySel f.selector row b g with ⟨res, row'⟩
    have hrow' : row' = row := by
      have h2 := hpure row
      rw [hselr] at h2
      exact h2
    subst hrow'
    rcases res with e | selected
    · have he : e = .keyError := hsel row' e (by rw [hselr])
      subst he
      obtain ⟨r, hr, hrinv⟩ := ih vals frags hinv
      exact ⟨(r.1, r.2.1, row' :: r.2.2), by rw [hr]; rfl, hrinv⟩
    · have hidok : ((applySel f.identificator row' b g).1).isOk = true :=
        hboth row' selected (by rw [hselr])
      have hPsel : P selected := hP row' selected (by rw [hselr])
      simp only
      rcases hidr : applySel f.identificator row' b g with ⟨res2, row''⟩
      rcases res2 with e | frag
      · rw [hidr] at hidok
        simp [Except.isOk, Except.toBool] at hidok
      · have hinv2 : ∀ v ∈ (if selected ∈ vals then vals else vals ++ [selected]),
            (lookupF (pySetF frags selected frag) v).isSome = true ∧ P v := by
          intro v hv
          have hvv : v = selected ∨ v ∈ vals := by
            by_cases hmem : selected ∈ vals
            · rw [if_pos hmem] at hv; exact Or.inr hv
            · rw [if_neg hmem] at hv
              rcases List.mem_append.mp hv with h1 | h1
              · exact Or.inr h1
              · simp at h1
                exact Or.inl h1
          constructor
          · rw [lookupF_pySetF]
            by_cases hveq : v = selected
            · rw [if_pos hveq]; rfl
            · rw [if_neg hveq]
              rcases hvv with h1 | h1
              · exact absurd h1 hveq
              · exact (hinv v h1).1
          · rcases hvv with h1 | h1
            · exact h1 ▸ hPsel
            · exact (hinv v h1).2
        obtain ⟨r, hr, hrinv⟩ := ih
          (if selected ∈ vals then vals else vals ++ [selected])
          (pySetF frags selected frag) hinv2
        refine ⟨(r.1, r.2.1, row'' :: r.2.2), ?_, hrinv⟩
        show Except.map (fun r => (r.1, r.2.1, row'' :: r.2.2))
          (selectorScan f g b rest
            (if selected ∈ vals then vals else vals ++ [selected])
            (pySetF frags selected frag)) = Except.ok (r.1, r.2.1, row'' :: r.2.2)
        rw [hr]
        rfl

theorem buildPages_ok (f : Facet) (binding term : String) (vals : List FValue)
    (frags : List (FValue × FValue))
    (hinv : ∀ v ∈ vals, (lookupF frags v).isSome = true)
    (hcomp : ∀ a ∈ vals, ∀ b ∈ vals, (fvLeE a b).isOk = true)
    (htitle : ∀ s : String,
      (pyFormat f.pagetitle [("term", term), ("selected", s)]).isOk = true) :
    ∃ pages, buildPages f binding term vals frags = .ok pages := by
  unfold buildPages
  obtain ⟨sv, hsv, hmem⟩ := pySorted_ok fvLeE vals f.selector_descending hcomp
  rw [hsv]
  simp only [Except.bind]
  apply mapM_isOk
  intro v hv
  have hmemv : v ∈ vals := (hmem v).mp hv
  have hl := hinv v hmemv
  rcases hlk : lookupF frags v with _ | frag
  · rw [hlk] at hl; cases hl
  · have ht := htitle (fvStr v)
    rcases hfmt : pyFormat f.pagetitle [("term", term), ("selected", fvStr v)]
        with e | t
    · rw [hfmt] at ht
      simp [Except.isOk, Except.toBool] at ht
    · rfl

theorem tocPagesetsGo_ok (g : Graph)
    (facets : List Facet)
    (hall : ∀ f ∈ facets,
      (∀ (row : Row), (applySel f.selector row (facetBinding f).1 g).2 = row) ∧
      (∀ (row : Row) (e : PyErr),
        (applySel f.selector row (facetBinding f).1 g).1 = .error e → e = .keyError) ∧
      (∀ (row : Row) (e : PyErr),
        (applySel f.identificator row (facetBinding f).1 g).1 = .error e →
          e = .keyError) ∧
      (∀ (row : Row) (v : FValue),
        (applySel f.selector row (facetBinding f).1 g).1 = .ok v →
        ((applySel f.identificator row (facetBinding f).1 g).1).isOk = true) ∧
      (∀ (row row' : Row) (v v' : FValue),
        (applySel f.selector row (facetBinding f).1 g).1 = .ok v →
        (applySel f.selector row' (facetBinding f).1 g).1 = .ok v' →
        (fvLeE v v').isOk = true) ∧
      ((pyFormat f.label [("term", (facetBinding f).2)]).isOk = true) ∧
      (∀ s : String,
        (pyFormat f.pagetitle
          [("term", (facetBinding f).2), ("selected", s)]).isOk = true)) :
    ∀ (data : List Row), ∃ r, tocPagesetsGo g facets data = .ok r := by
  induction facets with
  | nil => intro data; exact ⟨([], data), rfl⟩
  | cons f fs ih =>
    intro data
    rw [tocPagesetsGo]
    by_cases huse : f.use_for_toc
    · rw [if_pos huse]
      obtain ⟨hp, hs, hi, hb, hcmp, hlab, htit⟩ := hall f (by simp)
      rcases hfmt : pyFormat f.label [("term", (facetBinding f).2)] with e | lab
      · rw [hfmt] at hlab
        simp [Except.isOk, Except.toBool] at hlab
      · obtain ⟨r, hr, hrinv⟩ :=
          selectorScan_ok f g (facetBinding f).1
            (fun v => ∃ row, (applySel f.selector row (facetBinding f).1 g).1 = .ok v)
            hp hs hi hb (fun row v h => ⟨row, h⟩) data [] [] (by simp)
        rw [hr]
        obtain ⟨pages, hpages⟩ :=
          buildPages_ok f (facetBinding f).1 (facetBinding f).2 r.1 r.2.1
            (fun v hv => (hrinv v hv).1)
            (fun a ha b hb2 => by
              obtain ⟨ra, hra⟩ := (hrinv a ha).2
              obtain ⟨rb, hrb⟩ := (hrinv b hb2).2
              exact hcmp ra rb a b hra hrb)
            htit
        simp only
        rw [hpages]
        obtain ⟨r2, hr2⟩ := ih (fun f' hf' => hall f' (by simp [hf'])) r.2.2
        rw [hr2]
        exact ⟨_, rfl⟩
    · rw [if_neg huse]
      exact ih (fun f' hf' => hall f' (by simp [hf'])) data

/-- C5 (amended): a row whose selector raises a missing-binding `KeyError`
— including the year selector on a value of unaccepted length — is skipped
for its facet without changing the pageset result, and the build returns
normally whenever every selector/identificator application either succeeds
or raises `KeyError`, the selectors leave rows unchanged, every row whose
selector succeeds also has a succeeding identificator, any two selector
group values are mutually comparable (so `sorted` cannot raise
`TypeError`), and the facet's `label` and `pagetitle` templates format
without error (no unknown `%(directive)s` and no malformed `%`). Each of
these provisos names a real abort path of `toc_pagesets`, all outside its
`except KeyError`: the counterexample shows the `ValueError` one — the
year selector on an accepted-length malformed date aborts the whole
build. -/
theorem c5_skip_on_keyerror :
    (∀ (f : Facet) (g : Graph) (pre post : List Row) (row : Row),
      applySel f.selector row (facetBinding f).1 g = (.error .keyError, row) →
      toc_pagesets (pre ++ row :: post) [f] g = toc_pagesets (pre ++ post) [f] g) ∧
    (∀ (g : Graph) (facets : List Facet),
      (∀ f ∈ facets,
        (∀ (row : Row), (applySel f.selector row (facetBinding f).1 g).2 = row) ∧
        (∀ (row : Row) (e : PyErr),
          (applySel f.selector row (facetBinding f).1 g).1 = .error e →
            e = .keyError) ∧
        (∀ (row : Row) (e : PyErr),
          (applySel f.identificator row (facetBinding f).1 g).1 = .error e →
            e = .keyError) ∧
        (∀ (row : Row) (v : FValue),
          (applySel f.selector row (facetBinding f).1 g).1 = .ok v →
          ((applySel f.identificator row (facetBinding f).1 g).1).isOk = true) ∧
        (∀ (row row' : Row) (v v' : FValue),
          (applySel f.selector row (facetBinding f).1 g).1 = .ok v →
          (applySel f.selector row' (facetBinding f).1 g).1 = .ok v' →
          (fvLeE v v').isOk = true) ∧
        ((pyFormat f.label [("term", (facetBinding f).2)]).isOk = true) ∧
        (∀ s : String,
          (pyFormat f.pagetitle
            [("term", (facetBinding f).2), ("selected", s)]).isOk = true)) →
      ∀ (data : List Row), ∃ ps, toc_pagesets data facets g = .ok ps) := by
  constructor
  · intro f g pre post row hrow
    rw [toc_single, toc_single,
      selectorScan_proj_skip f g (facetBinding f).1 row hrow pre post [] []]
  · intro g facets hall data
    obtain ⟨r, hr⟩ := tocPagesetsGo_ok g facets hall data
    refine ⟨r.1, ?_⟩
    unfold toc_pagesets
    rw [hr]
    rfl

/-- C5 witness: a row missing `dcterms_issued` is skipped by the
publication-year facet without changing the built pagesets. -/
theorem c5_skip_on_keyerror_witness :
    toc_pagesets ([[("dcterms_title", FValue.str "X")]] ++
        [("dcterms_title", FValue.str "Y")] ::
          [[("dcterms_issued", FValue.str "2010-01-01")]])
      [mkFacet dctermsIssued] [] =
    toc_pagesets ([[("dcterms_title", FValue.str "X")]] ++
        [[("dcterms_issued", FValue.str "2010-01-01")]])
      [mkFacet dctermsIssued] [] :=
  (c5_skip_on_keyerror).1 (mkFacet dctermsIssued) []
    [[("dcterms_title", FValue.str "X")]]
    [[("dcterms_issued", FValue.str "2010-01-01")]]
    [("dcterms_title", FValue.str "Y")] (by decide)

theorem selectorScan_append (f : Facet) (g : Graph) (b : String) :
    ∀ (xs ys : List Row) (vals : List FValue) (frags : List (FValue × FValue)),
      selectorScan f g b (xs ++ ys) vals frags =
        (selectorScan f g b xs vals frags).bind
          (fun r => (selectorScan f g b ys r.1 r.2.1).map
            (fun r2 => (r2.1, r2.2.1, r.2.2 ++ r2.2.2))) := by
  intro xs
  induction xs with
  | nil =>
    intro ys vals frags
    simp only [List.nil_append, selectorScan, Except.bind]
    rcases h : selectorScan f g b ys vals frags with e | r
    · rfl
    · simp [Except.map]
  | cons x xs ih =>
    intro ys vals frags
    simp only [List.cons_append]
    rw [selectorScan, selectorScan]
    rcases hsel : applySel f.selector x b g with ⟨res, x'⟩
    rcases res with e | selected
    · rcases e with _ | _ | _ | _
      · simp only
        rw [ih]
        rcases h1 : selectorScan f g b xs vals frags with e1 | r1
        · rfl
        · simp only [Except.bind, Except.map]
          rcases h2 : selectorScan f g b ys r1.1 r1.2.1 with e2 | r2
          · rfl
          · rfl
      all_goals rfl
    · simp only
      rcases hid : applySel f.identificator x' b g with ⟨res2, x''⟩
      rcases res2 with e | frag
      · rcases e with _ | _ | _ | _
        · simp only
          rw [ih]
          rcases h1 : selectorScan f g b xs
              (if selected ∈ vals then vals else vals ++ [selected]) frags with e1 | r1
          · rfl
          · simp only [Except.bind, Except.map]
            rcases h2 : selectorScan f g b ys r1.1 r1.2.1 with e2 | r2
            · rfl
            · rfl
        all_goals rfl
      · simp only
        rw [ih]
        rcases h1 : selectorScan f g b xs
            (if selected ∈ vals then vals else vals ++ [selected])
            (pySetF frags selected frag) with e1 | r1
        · rfl
        · simp only [Except.bind, Except.map]
          rcases h2 : selectorScan f g b ys r1.1 r1.2.1 with e2 | r2
          · rfl
          · rfl

theorem toOption_ok (r : Except PyErr FValue) (w : FValue) :
    r.toOption = some w ↔ r = .ok w := by
  rcases r with e | v
  · simp [Except.toOption]
  · simp [Except.toOption]

theorem mapM_ok_mem {α β : Type} (fn : α → Except PyErr β) :
    ∀ (l : List α) (ys : List β), l.mapM fn = .ok ys →
      ∀ y ∈ ys, ∃ x ∈ l, fn x = .ok y := by
  intro l
  induction l with
  | nil =>
    intro ys h y hy
    simp only [List.mapM_nil] at h
    cases h
    simp at hy
  | cons x xs ih =>
    intro ys h y hy
    rw [List.mapM_cons] at h
    rcases hx : fn x with e | y0
    · rw [hx] at h
      cases h
    · rw [hx] at h
      rcases hxs : xs.mapM fn with e | ys'
      · rw [hxs] at h
        cases h
      · rw [hxs] at h
        cases h
        rcases List.mem_cons.mp hy with h1 | h1
        · subst h1
          exact ⟨x, by simp, hx⟩
        · obtain ⟨x', hx', hfx'⟩ := ih ys' hxs y h1
          exact ⟨x', by simp [hx'], hfx'⟩

theorem selectorScan_frag_last (f : Facet) (g : Graph) (b : String)
    (hpure : ∀ (row : Row), (applySel f.selector row b g).2 = row) :
    ∀ (data : List Row) (vals : List FValue) (frags : List (FValue × FValue))
      (r : List FValue × List (FValue × FValue) × List Row) (v : FValue),
      selectorScan f g b data vals frags = .ok r →
      lookupF r.2.1 v =
        (match (data.filter (fun row =>
            (decide ((applySel f.selector row b g).1 = .ok v)) &&
            ((applySel f.identificator row b g).1).isOk)).getLast? with
         | some rlast => ((applySel f.identificator rlast b g).1).toOption
         | none => lookupF frags v) := by
  intro data
  induction data using List.reverseRecOn with
  | nil =>
    intro vals frags r v h
    cases h
    rfl
  | append_singleton xs x ih =>
    intro vals frags r v h
    rw [selectorScan_append] at h
    rcases h1 : selectorScan f g b xs vals frags with e1 | r1
    · rw [h1] at h; cases h
    · rw [h1] at h
      simp only [Except.bind] at h
      rcases h2 : selectorScan f g b [x] r1.1 r1.2.1 with e2 | r2
      · rw [h2] at h; cases h
      · rw [h2] at h
        simp only [Except.map] at h
        cases h
        -- analyse the single step on x
        rw [selectorScan] at h2
        rcases hsel : applySel f.selector x b g with ⟨res, x'⟩
        have hx' : x' = x := by
          have := hpure x
          rw [hsel] at this
          exact this
        subst hx'
        rw [hsel] at h2
        rw [List.filter_append]
        rcases res with e | selected
        · rcases e with _ | _ | _ | _ <;> simp only at h2
          · -- keyError: x contributes nothing
            have hq : (decide ((applySel f.selector x' b g).1 = .ok v) &&
                ((applySel f.identificator x' b g).1).isOk) = false := by
              rw [hsel]
              simp
            rw [List.filter_singleton, hq]
            simp only [cond_false, List.append_nil]
            cases h2
            simp only
            exact ih vals frags (r1.1, r1.2.1, r1.2.2) v (by rw [h1])
          all_goals cases h2
        · simp only at h2
          rcases hid : applySel f.identificator x' b g with ⟨res2, x''⟩
          rw [hid] at h2
          rcases res2 with e | frag
          · rcases e with _ | _ | _ | _ <;> simp only at h2
            · -- identificator keyError: no fragment recorded
              have hq : (decide ((applySel f.selector x' b g).1 = .ok v) &&
                  ((applySel f.identificator x' b g).1).isOk) = false := by
                rw [hid]
                simp [Except.isOk, Except.toBool]
              rw [List.filter_singleton, hq]
              simp only [cond_false, List.append_nil]
              cases h2
              simp only
              exact ih vals frags _ v (by rw [h1])
            all_goals cases h2
          · -- identificator succeeded: fragment overwritten at `selected`
            cases h2
            simp only
            by_cases hveq : selected = v
            · subst hveq
              have hq : (decide ((applySel f.selector x' b g).1 = .ok selected) &&
                  ((applySel f.identificator x' b g).1).isOk) = true := by
                rw [hsel, hid]
                simp [Except.isOk, Except.toBool]
              rw [List.filter_singleton, hq]
              simp only [cond_true]
              rw [List.getLast?_concat]
              rw [lookupF_pySetF, if_pos rfl]
              show some frag = ((applySel f.identificator x' b g).1).toOption
              rw [hid]
              rfl
            · have hq : (decide ((applySel f.selector x' b g).1 = .ok v) &&
                  ((applySel f.identificator x' b g).1).isOk) = false := by
                rw [hsel]
                simp [hveq]
              rw [List.filter_singleton, hq]
              simp only [cond_false, List.append_nil]
              rw [lookupF_pySetF, if_neg (fun hc => hveq hc.symm)]
              exact ih vals frags _ v (by rw [h1])

/-- C6 (amended): in `toc_pagesets`, for every distinct selector group
value, the URL fragment assigned to the resulting page equals the
identificator applied to the *last* row (in input order) whose selector
produced that value and whose identificator succeeded —
`selector_fragments[selected]` is overwritten on every matching row, so
the last one wins, not the first. -/
theorem c6_fragment_last_row (f : Facet) (g : Graph) (data : List Row)
    (ps : TocPageset) (page : TocPage) (rlast : Row)
    (hpure : ∀ (row : Row), (applySel f.selector row (facetBinding f).1 g).2 = row)
    (hok : toc_pagesets data [f] g = .ok [ps])
    (hpage : page ∈ ps.pages)
    (hlast : (data.filter (fun row =>
        (decide ((applySel f.selector row (facetBinding f).1 g).1 =
          .ok page.linktext)) &&
        ((applySel f.identificator row (facetBinding f).1 g).1).isOk)).getLast? =
      some rlast) :
    (applySel f.identificator rlast (facetBinding f).1 g).1 = .ok page.value := by
  rw [toc_single] at hok
  by_cases huse : f.use_for_toc
  case neg =>
    rw [if_neg huse] at hok
    cases hok
  case pos =>
  rw [if_pos huse] at hok
  rcases hfmt : pyFormat f.label [("term", (facetBinding f).2)] with e | lab
  · rw [hfmt] at hok; cases hok
  · rw [hfmt] at hok
    simp only [Except.bind] at hok
    rcases hscan : selectorScan f g (facetBinding f).1 data [] [] with e | r
    · rw [hscan] at hok; cases hok
    · rw [hscan] at hok
      simp only [Except.map, Except.bind] at hok
      rcases hbuild : buildPages f (facetBinding f).1 (facetBinding f).2 r.1 r.2.1
          with e | pages
      · rw [hbuild] at hok; cases hok
      · rw [hbuild] at hok
        simp only [Except.map, Except.ok.injEq, List.cons.injEq, and_true] at hok
        have hps : ps.pages = pages := by
          rw [← hok]
        rw [hps] at hpage
        unfold buildPages at hbuild
        rcases hsort : pySorted fvLeE r.1 f.selector_descending with e | sv
        · rw [hsort] at hbuild; cases hbuild
        · rw [hsort] at hbuild
          simp only [Except.bind] at hbuild
          obtain ⟨v, hv, hbody⟩ := mapM_ok_mem _ sv pages hbuild page hpage
          rcases hl : lookupF r.2.1 v with _ | frag
          · rw [hl] at hbody; cases hbody
          · rw [hl] at hbody
            rcases hfmt2 : pyFormat f.pagetitle
                [("term", (facetBinding f).2), ("selected", fvStr v)] with e | t
            · rw [hfmt2] at hbody; cases hbody
            · rw [hfmt2] at hbody
              simp only [Except.map, Except.ok.injEq] at hbody
              have hlink : page.linktext = v := by rw [← hbody]
              have hval : page.value = frag := by rw [← hbody]
              have hfrag := selectorScan_frag_last f g (facetBinding f).1 hpure
                data [] [] r page.linktext hscan
              rw [hlast] at hfrag
              rw [hlink, hl] at hfrag
              have := (toOption_ok _ _).mp hfrag.symm
              rw [this, hval]

/-- C6 witness: with selector `year` and identificator `defaultselector`
over the rows issued 2010-01-01 then 2010-06-05, the page fragment for
group "2010" is the last row's identificator value, "2010-06-05". -/
theorem c6_fragment_last_row_witness :
    (applySel facetYearIdent.identificator
        [("dcterms_issued", FValue.str "2010-06-05")]
        (facetBinding facetYearIdent).1 []).1 = .ok (FValue.str "2010-06-05") :=
  c6_fragment_last_row facetYearIdent []
    [[("dcterms_issued", FValue.str "2010-01-01")],
     [("dcterms_issued", FValue.str "2010-06-05")]]
    { label := "Sorted by publication year", predicate := dctermsIssued,
      pages := [{ linktext := FValue.str "2010",
                  title := "Documents published in 2010",
                  binding := "dcterms_issued",
                  value := FValue.str "2010-06-05" }] }
    { linktext := FValue.str "2010", title := "Documents published in 2010",
      binding := "dcterms_issued", value := FValue.str "2010-06-05" }
    [("dcterms_issued", FValue.str "2010-06-05")]
    (fun _ => rfl) (by decide) (by decide) (by decide)
